import Mathlib

/-!
# Verification of the fastkml `styles` module

A shallow embedding of `fastkml/styles.py`: the KML style model
(`StyleUrl`, `Style`, `StyleMap`, the `_ColorStyle` family and
`BalloonStyle`) together with its element-tree codec
(`etree_element` / `from_element`), plus proofs of the specified
properties.

Python numeric values that flow through the codec are modelled by
`PyNum`: either a Python `int` (arbitrary-precision `Int`) or a Python
`float`, modelled as a decimal value `m / 10 ^ e` (`PyFloat`).  `str`
on these values is modelled as plain decimal rendering (Python's
switch to scientific notation for extreme magnitudes is outside the
model), and `float(text)` as a parser for optionally signed decimal
literals (exponent forms, `inf`/`nan` and surrounding whitespace are
outside the model).  Two numbers are "equal" in the Python sense
(`==`) iff they denote the same rational, `PyNum.toRat`.
-/

namespace FastKML

/-! ## Python-style numbers and their textual forms -/

/-- A Python float value, modelled as the decimal `m / 10 ^ e`. -/
structure PyFloat where
  m : Int
  e : Nat
deriving DecidableEq, Repr

/-- A Python number: an `int` or a `float`. -/
inductive PyNum where
  | int (n : Int)
  | float (x : PyFloat)
deriving DecidableEq, Repr

/-- The rational value denoted by a `PyFloat`. -/
def PyFloat.toRat (x : PyFloat) : ℚ := (x.m : ℚ) / (10 : ℚ) ^ x.e

/-- The rational value denoted by a `PyNum`. -/
def PyNum.toRat : PyNum → ℚ
  | .int n => (n : ℚ)
  | .float x => x.toRat

/-- Python `==` between numbers: equality of denoted values. -/
def PyNum.eqv (a b : PyNum) : Prop := a.toRat = b.toRat

instance : DecidableEq ℚ := inferInstance

instance (a b : PyNum) : Decidable (a.eqv b) := by
  unfold PyNum.eqv; infer_instance

/-- Python truthiness of a number: nonzero. -/
def PyNum.truthy : PyNum → Bool
  | .int n => n != 0
  | .float x => x.m != 0

/-- `int()` truncation toward zero of a `PyFloat`. -/
def PyFloat.trunc (x : PyFloat) : Int :=
  if x.m < 0 then -((x.m.natAbs / 10 ^ x.e : Nat) : Int)
  else ((x.m.natAbs / 10 ^ x.e : Nat) : Int)

/-- The character for a decimal digit value. -/
def digitToChar (d : Nat) : Char := Char.ofNat (48 + d)

/-- The digit value of a decimal digit character, if it is one. -/
def charToDigit (c : Char) : Option Nat :=
  if 48 ≤ c.toNat ∧ c.toNat ≤ 57 then some (c.toNat - 48) else none

/-- Little-endian decimal digits, by fuel (so that it reduces
definitionally); `digitsLE n n` is `Nat.digits 10 n`. -/
def digitsLE : Nat → Nat → List Nat
  | 0, _ => []
  | _ + 1, 0 => []
  | f + 1, n + 1 => ((n + 1) % 10) :: digitsLE f ((n + 1) / 10)

/-- Big-endian decimal digits of a natural number (empty for `0`). -/
def natDigitsBE (n : Nat) : List Nat := (digitsLE n n).reverse

/-- The value of a big-endian decimal digit list. -/
def ofDigitsBE (l : List Nat) : Nat := Nat.ofDigits 10 l.reverse

/-- Decimal digit characters of a natural number  (`"0"` for `0`). -/
def natStrChars (n : Nat) : List Char :=
  if n = 0 then ['0'] else (natDigitsBE n).map digitToChar

/-- Strip trailing decimal zeros: rewrite `n / 10 ^ e` with the fewest
possible fractional digits (possibly none). -/
def stripTZ : Nat → Nat → Nat × Nat
  | n, 0 => (n, 0)
  | n, e + 1 => if n % 10 = 0 then stripTZ (n / 10) e else (n, e + 1)

/-- Render `n / 10 ^ e` (with `1 ≤ e`) as digit characters with a
decimal point before the last `e` digits, zero-padding on the left. -/
def floatStrCore (n e : Nat) : List Char :=
  let ds0 := natDigitsBE n
  let ds := List.replicate (e + 1 - ds0.length) 0 ++ ds0
  (ds.take (ds.length - e)).map digitToChar
    ++ '.' :: (ds.drop (ds.length - e)).map digitToChar

/-- Characters of Python `str` of a float: shortest decimal form,
always keeping at least one fractional digit. -/
def pyStrFloatChars (x : PyFloat) : List Char :=
  let p := stripTZ x.m.natAbs x.e
  let core := match p with
    | (n, 0) => natStrChars n ++ ['.', '0']
    | (n, e' + 1) => floatStrCore n (e' + 1)
  if x.m < 0 then '-' :: core else core

/-- Python `str` of an int. -/
def pyStrInt (n : Int) : String :=
  String.mk (if n < 0 then '-' :: natStrChars n.natAbs else natStrChars n.natAbs)

/-- Python `str` of a number. -/
def pyStr : PyNum → String
  | .int n => pyStrInt n
  | .float x => String.mk (pyStrFloatChars x)

/-- Read a (possibly empty) run of decimal digit characters; `none` if
any character is not a digit. -/
def readDigits : List Char → Option (List Nat)
  | [] => some []
  | c :: cs => do
      let d ← charToDigit c
      let ds ← readDigits cs
      pure (d :: ds)

/-- Split a character list at the first `'.'`, if any. -/
def splitPoint : List Char → List Char × Option (List Char)
  | [] => ([], none)
  | c :: cs =>
      if c = '.' then ([], some cs)
      else
        let p := splitPoint cs
        (c :: p.1, p.2)

/-- Parse an unsigned decimal literal `digits[.digits]` (at least one
digit overall) into scaled value and fractional-digit count. -/
def parseUnsigned (cs : List Char) : Option (Nat × Nat) :=
  match readDigits (splitPoint cs).1, readDigits ((splitPoint cs).2.getD []) with
  | some di, some df =>
      if di.isEmpty && df.isEmpty then none
      else some (ofDigitsBE (di ++ df), df.length)
  | _, _ => none

/-- Parse an optionally signed decimal literal into a `PyFloat`. -/
def parseSigned (cs : List Char) : Option PyFloat :=
  match cs with
  | [] => none
  | c :: rest =>
      if c = '-' then (parseUnsigned rest).map fun p => ⟨-(p.1 : Int), p.2⟩
      else if c = '+' then (parseUnsigned rest).map fun p => ⟨(p.1 : Int), p.2⟩
      else (parseUnsigned (c :: rest)).map fun p => ⟨(p.1 : Int), p.2⟩

/-- Python `float(text)` on a string, modelled for plain decimal
literals. -/
def parsePyFloat (s : String) : Option PyFloat := parseSigned s.data

/-! ## The element-tree capability

An in-memory XML element: qualified tag, the `id` attribute (the only
attribute this module uses), text, and the child list. -/

structure Element where
  tag : String
  idAttr : Option String
  text : Option String
  children : List Element
deriving Repr

/-- `element.find(tag)`: first direct child with the given tag. -/
def Element.find (el : Element) (t : String) : Option Element :=
  el.children.find? fun c => c.tag == t

/-- `element.findall(tag)`: all direct children with the given tag. -/
def Element.findall (el : Element) (t : String) : List Element :=
  el.children.filter fun c => c.tag == t

/-- A child element holding only text. -/
def textElem (tag : String) (t : Option String) : Element :=
  { tag := tag, idAttr := none, text := t, children := [] }

/-! ## Error kinds

The error kinds of the module: explicit `raise ValueError` sites
(ValueKind), explicit `raise TypeError` sites (TypeKind), a
`ValueError` escaping from `float()` on malformed text (ParseKind,
kept distinct from the explicit ValueKind sites), and the
`AttributeError` Python raises when a method is called on `None`. -/

inductive PyErr where
  | typeError
  | valueError
  | parseError
  | attributeError
deriving DecidableEq, Repr

/-- `float(text)` where `text` is an element's text: `float(None)`
raises `TypeError`; malformed text raises the parse error. -/
def pyFloatOfText : Option String → Except PyErr PyFloat
  | none => .error .typeError
  | some s =>
      match parsePyFloat s with
      | some x => .ok x
      | none => .error .parseError

/-! ## The base styleable object (external collaborator) -/

/-- Modelled from the spec: `_BaseObject.etree_element` (in
`fastkml/base.py`, outside this module) builds the root element with
the namespace-qualified tag name and the `id` attribute when an id is
set. -/
def baseElement (ns name : String) (id : Option String) : Element :=
  { tag := ns ++ name, idAttr := id, text := none, children := [] }

/-- Modelled from the spec: `_BaseObject.from_element` (in
`fastkml/base.py`, outside this module) reads the `id` attribute when
present, leaving the prior id otherwise. -/
def idFrom (old : Option String) (el : Element) : Option String :=
  match el.idAttr with
  | some s => some s
  | none => old

/-! ## The style model (`fastkml/styles.py`) -/

/-- `StyleUrl`: URL of a `<Style>` or `<StyleMap>` defined elsewhere. -/
structure StyleUrl where
  ns : String
  id : Option String
  url : Option String
deriving DecidableEq, Repr

/-- `IconStyle` (a `_ColorStyle`). -/
structure IconStyle where
  ns : String
  id : Option String
  color : Option String
  colorMode : Option String
  scale : Option PyNum
  heading : Option PyNum
  icon_href : Option String
deriving DecidableEq, Repr

/-- `LineStyle` (a `_ColorStyle`). -/
structure LineStyle where
  ns : String
  id : Option String
  color : Option String
  colorMode : Option String
  width : Option PyNum
deriving DecidableEq, Repr

/-- `PolyStyle` (a `_ColorStyle`); `fill` and `outline` are int
booleans. -/
structure PolyStyle where
  ns : String
  id : Option String
  color : Option String
  colorMode : Option String
  fill : Option Int
  outline : Option Int
deriving DecidableEq, Repr

/-- `LabelStyle` (a `_ColorStyle`). -/
structure LabelStyle where
  ns : String
  id : Option String
  color : Option String
  colorMode : Option String
  scale : Option PyNum
deriving DecidableEq, Repr

/-- `BalloonStyle`. -/
structure BalloonStyle where
  ns : String
  id : Option String
  bgColor : Option String
  textColor : Option String
  text : Option String
  displayMode : Option String
deriving DecidableEq, Repr

/-- A member of a `Style` bundle: an instance of `_ColorStyle` or
`BalloonStyle` (the only kinds `append_style` admits). -/
inductive StyleMember where
  | icon (s : IconStyle)
  | line (s : LineStyle)
  | poly (s : PolyStyle)
  | label (s : LabelStyle)
  | balloon (s : BalloonStyle)
deriving DecidableEq, Repr

/-- `Style`: an addressable bundle of style members. -/
structure Style where
  ns : String
  id : Option String
  _styles : List StyleMember
deriving DecidableEq, Repr

/-- A Python runtime value that might be handed to
`Style.append_style`: one of the five admissible kinds, or some other
object, characterised only by the name of its kind (a `StyleUrl`, a
`Style`, a string, ...). -/
inductive PyObj where
  | icon (s : IconStyle)
  | line (s : LineStyle)
  | poly (s : PolyStyle)
  | label (s : LabelStyle)
  | balloon (s : BalloonStyle)
  | other (kind : String)
deriving DecidableEq, Repr

/-- A value held in a `StyleMap` slot (`normal`/`highlight`): in
well-formed use a `Style` or a `StyleUrl`, but Python lets callers
store anything, so an `other` case (with its truthiness) is kept. -/
inductive SlotVal where
  | style (s : Style)
  | styleUrl (u : StyleUrl)
  | other (kind : String) (truthy : Bool)
deriving DecidableEq, Repr

/-- `StyleMap`: a two-slot selector. -/
structure StyleMap where
  ns : String
  id : Option String
  normal : Option SlotVal
  highlight : Option SlotVal
deriving DecidableEq, Repr

/-! ### Freshly constructed instances (`Klass(ns)`), with the
constructor defaults of the source. -/

/-- `StyleUrl(ns)`. -/
def freshStyleUrl (ns : String) : StyleUrl := ⟨ns, none, none⟩

/-- `IconStyle(ns)`: `scale` defaults to the float `1.0`. -/
def freshIconStyle (ns : String) : IconStyle :=
  ⟨ns, none, none, none, some (.float ⟨1, 0⟩), none, none⟩

/-- `LineStyle(ns)`: `width` defaults to the int `1`. -/
def freshLineStyle (ns : String) : LineStyle :=
  ⟨ns, none, none, none, some (.int 1)⟩

/-- `PolyStyle(ns)`: `fill` and `outline` default to the int `1`. -/
def freshPolyStyle (ns : String) : PolyStyle :=
  ⟨ns, none, none, none, some 1, some 1⟩

/-- `LabelStyle(ns)`: `scale` defaults to the float `1.0`. -/
def freshLabelStyle (ns : String) : LabelStyle :=
  ⟨ns, none, none, none, some (.float ⟨1, 0⟩)⟩

/-- `BalloonStyle(ns)`. -/
def freshBalloonStyle (ns : String) : BalloonStyle :=
  ⟨ns, none, none, none, none, none⟩

/-- `Style(ns)`: empty member list. -/
def freshStyle (ns : String) : Style := ⟨ns, none, []⟩

/-- `StyleMap(ns)`. -/
def freshStyleMap (ns : String) : StyleMap := ⟨ns, none, none, none⟩

/-! ### Encoding (`etree_element`) -/

/-- A `color`/`colorMode`-shaped child, emitted only when the string
field is truthy (`if self.color:`). -/
def truthyTextChild (tag : String) : Option String → List Element
  | some s => if s = "" then [] else [textElem tag (some s)]
  | none => []

/-- A text child emitted whenever the string field is not `None`
(`if self.text is not None:`). -/
def presentTextChild (tag : String) : Option String → List Element
  | some s => [textElem tag (some s)]
  | none => []

/-- A numeric text child emitted whenever the field is not `None`
(`if self.scale is not None:`), with `str(value)` as text. -/
def numTextChild (tag : String) : Option PyNum → List Element
  | some v => [textElem tag (some (pyStr v))]
  | none => []

/-- A numeric text child emitted only when the field is truthy
(`if self.heading:`). -/
def truthyNumTextChild (tag : String) : Option PyNum → List Element
  | some v => if v.truthy then [textElem tag (some (pyStr v))] else []
  | none => []

/-- An int text child emitted whenever the field is not `None`
(`if self.fill is not None:`). -/
def intTextChild (tag : String) : Option Int → List Element
  | some n => [textElem tag (some (pyStrInt n))]
  | none => []

/-- `_ColorStyle.etree_element`: the shared `color`/`colorMode`
children. -/
def colorStyleChildren (ns : String) (color colorMode : Option String) : List Element :=
  truthyTextChild (ns ++ "color") color ++ truthyTextChild (ns ++ "colorMode") colorMode

/-- `StyleUrl.etree_element`. -/
def StyleUrl.etree_element (u : StyleUrl) : Except PyErr Element :=
  match u.url with
  | some s =>
      if s = "" then .error .valueError
      else .ok { baseElement u.ns "styleUrl" u.id with text := some s }
  | none => .error .valueError

/-- `IconStyle.etree_element`. -/
def IconStyle.etree_element (st : IconStyle) : Element :=
  { baseElement st.ns "IconStyle" st.id with
    children :=
      colorStyleChildren st.ns st.color st.colorMode
        ++ numTextChild (st.ns ++ "scale") st.scale
        ++ truthyNumTextChild (st.ns ++ "heading") st.heading
        ++ (match st.icon_href with
            | some s =>
                if s = "" then []
                else [{ tag := st.ns ++ "Icon", idAttr := none, text := none,
                        children := [textElem (st.ns ++ "href") (some s)] }]
            | none => []) }

/-- `LineStyle.etree_element`. -/
def LineStyle.etree_element (st : LineStyle) : Element :=
  { baseElement st.ns "LineStyle" st.id with
    children :=
      colorStyleChildren st.ns st.color st.colorMode
        ++ numTextChild (st.ns ++ "width") st.width }

/-- `PolyStyle.etree_element`. -/
def PolyStyle.etree_element (st : PolyStyle) : Element :=
  { baseElement st.ns "PolyStyle" st.id with
    children :=
      colorStyleChildren st.ns st.color st.colorMode
        ++ intTextChild (st.ns ++ "fill") st.fill
        ++ intTextChild (st.ns ++ "outline") st.outline }

/-- `LabelStyle.etree_element`. -/
def LabelStyle.etree_element (st : LabelStyle) : Element :=
  { baseElement st.ns "LabelStyle" st.id with
    children :=
      colorStyleChildren st.ns st.color st.colorMode
        ++ numTextChild (st.ns ++ "scale") st.scale }

/-- `BalloonStyle.etree_element`. -/
def BalloonStyle.etree_element (st : BalloonStyle) : Element :=
  { baseElement st.ns "BalloonStyle" st.id with
    children :=
      presentTextChild (st.ns ++ "bgColor") st.bgColor
        ++ presentTextChild (st.ns ++ "textColor") st.textColor
        ++ presentTextChild (st.ns ++ "text") st.text
        ++ presentTextChild (st.ns ++ "displayMode") st.displayMode }

/-- Encoding of a bundle member (dynamic dispatch on its kind). -/
def StyleMember.etree_element : StyleMember → Element
  | .icon s => s.etree_element
  | .line s => s.etree_element
  | .poly s => s.etree_element
  | .label s => s.etree_element
  | .balloon s => s.etree_element

/-- `Style.etree_element`: the base element with each member's element
appended in insertion order (via the `styles()` generator, whose
re-validation cannot fail on the typed member list). -/
def Style.etree_element (st : Style) : Element :=
  { baseElement st.ns "Style" st.id with
    children := st._styles.map StyleMember.etree_element }

/-- `Style.append_style`: admits exactly the five member kinds; any
other runtime kind raises `TypeError`, leaving the bundle unchanged. -/
def Style.append_style (st : Style) (style : PyObj) : Except PyErr Style :=
  match style with
  | .icon s => .ok { st with _styles := st._styles ++ [.icon s] }
  | .line s => .ok { st with _styles := st._styles ++ [.line s] }
  | .poly s => .ok { st with _styles := st._styles ++ [.poly s] }
  | .label s => .ok { st with _styles := st._styles ++ [.label s] }
  | .balloon s => .ok { st with _styles := st._styles ++ [.balloon s] }
  | .other _ => .error .typeError

/-! ### Decoding (`from_element`) -/

/-- `_ColorStyle.from_element`: read `colorMode` then `color` from the
children when present, otherwise keep the prior field values. -/
def colorStyleFrom (ns : String) (color colorMode : Option String) (el : Element) :
    Option String × Option String :=
  let colorMode :=
    match el.find (ns ++ "colorMode") with
    | some c => c.text
    | none => colorMode
  let color :=
    match el.find (ns ++ "color") with
    | some c => c.text
    | none => color
  (color, colorMode)

/-- `StyleUrl.from_element`. -/
def StyleUrl.from_element (u : StyleUrl) (el : Element) : StyleUrl :=
  { u with id := idFrom u.id el, url := el.text }

/-- `IconStyle.from_element`. -/
def IconStyle.from_element (st : IconStyle) (el : Element) : Except PyErr IconStyle := do
  let id := idFrom st.id el
  let cc := colorStyleFrom st.ns st.color st.colorMode el
  let scale ←
    match el.find (st.ns ++ "scale") with
    | some c => do
        let x ← pyFloatOfText c.text
        pure (some (PyNum.float x))
    | none => pure st.scale
  let heading ←
    match el.find (st.ns ++ "heading") with
    | some c => do
        let x ← pyFloatOfText c.text
        pure (some (PyNum.float x))
    | none => pure st.heading
  let icon_href :=
    match el.find (st.ns ++ "Icon") with
    | some icon =>
        match icon.find (st.ns ++ "href") with
        | some href => href.text
        | none => st.icon_href
    | none => st.icon_href
  pure { st with id := id, color := cc.1, colorMode := cc.2,
                 scale := scale, heading := heading, icon_href := icon_href }

/-- `LineStyle.from_element`. -/
def LineStyle.from_element (st : LineStyle) (el : Element) : Except PyErr LineStyle := do
  let id := idFrom st.id el
  let cc := colorStyleFrom st.ns st.color st.colorMode el
  let width ←
    match el.find (st.ns ++ "width") with
    | some c => do
        let x ← pyFloatOfText c.text
        pure (some (PyNum.float x))
    | none => pure st.width
  pure { st with id := id, color := cc.1, colorMode := cc.2, width := width }

/-- `PolyStyle.from_element`: `fill`/`outline` are parsed with
`int(float(text))`. -/
def PolyStyle.from_element (st : PolyStyle) (el : Element) : Except PyErr PolyStyle := do
  let id := idFrom st.id el
  let cc := colorStyleFrom st.ns st.color st.colorMode el
  let fill ←
    match el.find (st.ns ++ "fill") with
    | some c => do
        let x ← pyFloatOfText c.text
        pure (some x.trunc)
    | none => pure st.fill
  let outline ←
    match el.find (st.ns ++ "outline") with
    | some c => do
        let x ← pyFloatOfText c.text
        pure (some x.trunc)
    | none => pure st.outline
  pure { st with id := id, color := cc.1, colorMode := cc.2,
                 fill := fill, outline := outline }

/-- `LabelStyle.from_element`. -/
def LabelStyle.from_element (st : LabelStyle) (el : Element) : Except PyErr LabelStyle := do
  let id := idFrom st.id el
  let cc := colorStyleFrom st.ns st.color st.colorMode el
  let scale ←
    match el.find (st.ns ++ "scale") with
    | some c => do
        let x ← pyFloatOfText c.text
        pure (some (PyNum.float x))
    | none => pure st.scale
  pure { st with id := id, color := cc.1, colorMode := cc.2, scale := scale }

/-- `BalloonStyle.from_element`: a legacy `color` child is used for
`bgColor` only when a `bgColor` child is absent. -/
def BalloonStyle.from_element (st : BalloonStyle) (el : Element) : BalloonStyle :=
  let id := idFrom st.id el
  let bgColor :=
    match el.find (st.ns ++ "bgColor") with
    | some c => c.text
    | none =>
        match el.find (st.ns ++ "color") with
        | some c => c.text
        | none => st.bgColor
  let textColor :=
    match el.find (st.ns ++ "textColor") with
    | some c => c.text
    | none => st.textColor
  let text :=
    match el.find (st.ns ++ "text") with
    | some c => c.text
    | none => st.text
  let displayMode :=
    match el.find (st.ns ++ "displayMode") with
    | some c => c.text
    | none => st.displayMode
  { st with id := id, bgColor := bgColor, textColor := textColor,
            text := text, displayMode := displayMode }

/-- One probe block of `Style.from_element`: find the first
`IconStyle` child, decode it into a fresh instance and append it. -/
def styleProbeIcon (st : Style) (el : Element) : Except PyErr Style :=
  match el.find (st.ns ++ "IconStyle") with
  | some style => do
      let thestyle ← IconStyle.from_element (freshIconStyle st.ns) style
      st.append_style (.icon thestyle)
  | none => pure st

/-- The `LineStyle` probe block of `Style.from_element`. -/
def styleProbeLine (st : Style) (el : Element) : Except PyErr Style :=
  match el.find (st.ns ++ "LineStyle") with
  | some style => do
      let thestyle ← LineStyle.from_element (freshLineStyle st.ns) style
      st.append_style (.line thestyle)
  | none => pure st

/-- The `PolyStyle` probe block of `Style.from_element`. -/
def styleProbePoly (st : Style) (el : Element) : Except PyErr Style :=
  match el.find (st.ns ++ "PolyStyle") with
  | some style => do
      let thestyle ← PolyStyle.from_element (freshPolyStyle st.ns) style
      st.append_style (.poly thestyle)
  | none => pure st

/-- The `LabelStyle` probe block of `Style.from_element`. -/
def styleProbeLabel (st : Style) (el : Element) : Except PyErr Style :=
  match el.find (st.ns ++ "LabelStyle") with
  | some style => do
      let thestyle ← LabelStyle.from_element (freshLabelStyle st.ns) style
      st.append_style (.label thestyle)
  | none => pure st

/-- The `BalloonStyle` probe block of `Style.from_element`. -/
def styleProbeBalloon (st : Style) (el : Element) : Except PyErr Style :=
  match el.find (st.ns ++ "BalloonStyle") with
  | some style =>
      st.append_style (.balloon (BalloonStyle.from_element (freshBalloonStyle st.ns) style))
  | none => pure st

/-- `Style.from_element`: probe for one child of each of the five tag
names, in the fixed source order, appending each style found. -/
def Style.from_element (st : Style) (el : Element) : Except PyErr Style := do
  let st := { st with id := idFrom st.id el }
  let st ← styleProbeIcon st el
  let st ← styleProbeLine st el
  let st ← styleProbePoly st el
  let st ← styleProbeLabel st el
  let st ← styleProbeBalloon st el
  pure st

/-- Decode one `Pair` child of a `StyleMap` (the body of the loop in
`StyleMap.from_element`). -/
def StyleMap.processPair (ns : String) (sm : StyleMap) (pair : Element) :
    Except PyErr StyleMap :=
  match pair.find (ns ++ "key") with
  | none => .error .attributeError
  | some key =>
      let style := pair.find (ns ++ "Style")
      let style_url := pair.find (ns ++ "styleUrl")
      if key.text = some "highlight" then
        match style with
        | some s => do
            let highlight ← Style.from_element (freshStyle ns) s
            pure { sm with highlight := some (.style highlight) }
        | none =>
            match style_url with
            | some su =>
                let highlight := StyleUrl.from_element (freshStyleUrl ns) su
                pure { sm with highlight := some (.styleUrl highlight) }
            | none => .error .valueError
      else if key.text = some "normal" then
        match style with
        | some s => do
            let normal ← Style.from_element (freshStyle ns) s
            pure { sm with normal := some (.style normal) }
        | none =>
            match style_url with
            | some su =>
                let normal := StyleUrl.from_element (freshStyleUrl ns) su
                pure { sm with normal := some (.styleUrl normal) }
            | none => .error .valueError
      else .error .valueError

/-- `StyleMap.from_element`: process every `Pair` child in order. -/
def StyleMap.from_element (sm : StyleMap) (el : Element) : Except PyErr StyleMap :=
  (el.findall (sm.ns ++ "Pair")).foldlM (StyleMap.processPair sm.ns)
    { sm with id := idFrom sm.id el }

/-- Truthiness of a `StyleMap` slot value (`if self.normal`). -/
def SlotVal.truthy : SlotVal → Bool
  | .style _ => true
  | .styleUrl _ => true
  | .other _ t => t

/-- `isinstance(value, (Style, StyleUrl))`. -/
def SlotVal.isStyleOrUrl : SlotVal → Bool
  | .style _ => true
  | .styleUrl _ => true
  | .other _ _ => false

/-- `value.etree_element()` on a slot value (dynamic dispatch; an
`other` value has no such method, hence `AttributeError`). -/
def SlotVal.etree_element : SlotVal → Except PyErr Element
  | .style s => .ok s.etree_element
  | .styleUrl u => u.etree_element
  | .other _ _ => .error .attributeError

/-- The `Pair` element built for one populated `StyleMap` slot. -/
def mkPairEl (ns keyText : String) (content : Element) : Element :=
  { tag := ns ++ "Pair", idAttr := none, text := none,
    children := [textElem (ns ++ "key") (some keyText), content] }

/-- One slot's contribution to `StyleMap.etree_element`: a single
`Pair` (holding the `key` child and the slot's encoded content) when
the slot value is truthy and a `Style`/`StyleUrl`, nothing otherwise
(`if self.normal and isinstance(self.normal, (Style, StyleUrl)):`). -/
def slotPairs (ns keyText : String) : Option SlotVal → Except PyErr (List Element)
  | some v =>
      if v.truthy && v.isStyleOrUrl then do
        let ce ← v.etree_element
        pure [mkPairEl ns keyText ce]
      else pure []
  | none => pure []

/-- `StyleMap.etree_element`: a `Pair` for `normal` then one for
`highlight`. -/
def StyleMap.etree_element (sm : StyleMap) : Except PyErr Element := do
  let normalChildren ← slotPairs sm.ns "normal" sm.normal
  let highlightChildren ← slotPairs sm.ns "highlight" sm.highlight
  pure { baseElement sm.ns "StyleMap" sm.id with
         children := normalChildren ++ highlightChildren }

/-- Python `==` on two optional numeric attributes. -/
def optNumEqv : Option PyNum → Option PyNum → Prop
  | some a, some b => a.eqv b
  | none, none => True
  | _, _ => False

instance : ∀ a b : Option PyNum, Decidable (optNumEqv a b)
  | some _, some _ => by unfold optNumEqv; infer_instance
  | none, none => by unfold optNumEqv; infer_instance
  | some _, none => by unfold optNumEqv; infer_instance
  | none, some _ => by unfold optNumEqv; infer_instance

/-- The bundle member corresponding to a Python object, when its
runtime kind is one of the five admissible kinds. -/
def PyObj.asMember : PyObj → Option StyleMember
  | .icon s => some (.icon s)
  | .line s => some (.line s)
  | .poly s => some (.poly s)
  | .label s => some (.label s)
  | .balloon s => some (.balloon s)
  | .other _ => none

/-- The tags of the elements a member list encodes to. -/
def memberTags (l : List StyleMember) : List String :=
  l.map fun m => m.etree_element.tag

/-- A `Style` element whose recognized children appear in the
scrambled order Label, Icon, Poly, Line, Balloon. -/
def elC3 : Element :=
  { tag := "kStyle", idAttr := none, text := none,
    children := [ (freshLabelStyle "k").etree_element,
                  (freshIconStyle "k").etree_element,
                  (freshPolyStyle "k").etree_element,
                  (freshLineStyle "k").etree_element,
                  (freshBalloonStyle "k").etree_element ] }

/-- The decode of `elC3`. -/
def stC3 : Style :=
  { ns := "k", id := none,
    _styles := [ .icon ⟨"k", none, none, none, some (.float ⟨10, 1⟩), none, none⟩,
                 .line ⟨"k", none, none, none, some (.float ⟨1, 0⟩)⟩,
                 .poly ⟨"k", none, none, none, some 1, some 1⟩,
                 .label ⟨"k", none, none, none, some (.float ⟨10, 1⟩)⟩,
                 .balloon ⟨"k", none, none, none, none, none⟩ ] }

/-! ### Round-trip (claim C1) -/

/-- A fully populated `IconStyle`: every optional field set, with
values the encoder's truthiness checks do not drop (nonempty strings,
nonzero heading). -/
def IconStyle.FullyPopulated (st : IconStyle) : Prop :=
  (∃ s, st.id = some s) ∧
  (∃ s, st.color = some s ∧ s ≠ "") ∧
  (∃ s, st.colorMode = some s ∧ s ≠ "") ∧
  (∃ v, st.scale = some v) ∧
  (∃ v, st.heading = some v ∧ v.truthy) ∧
  (∃ s, st.icon_href = some s ∧ s ≠ "")

/-- Python-`==` field-by-field equality of `IconStyle`s (numeric
fields compare by value). -/
def IconStyle.fieldEq (a b : IconStyle) : Prop :=
  a.ns = b.ns ∧ a.id = b.id ∧ a.color = b.color ∧ a.colorMode = b.colorMode ∧
  optNumEqv a.scale b.scale ∧ optNumEqv a.heading b.heading ∧
  a.icon_href = b.icon_href

/-- A fully populated `LineStyle`. -/
def LineStyle.FullyPopulated (st : LineStyle) : Prop :=
  (∃ s, st.id = some s) ∧
  (∃ s, st.color = some s ∧ s ≠ "") ∧
  (∃ s, st.colorMode = some s ∧ s ≠ "") ∧
  (∃ v, st.width = some v)

/-- Python-`==` field-by-field equality of `LineStyle`s. -/
def LineStyle.fieldEq (a b : LineStyle) : Prop :=
  a.ns = b.ns ∧ a.id = b.id ∧ a.color = b.color ∧ a.colorMode = b.colorMode ∧
  optNumEqv a.width b.width

/-- A fully populated `PolyStyle`. -/
def PolyStyle.FullyPopulated (st : PolyStyle) : Prop :=
  (∃ s, st.id = some s) ∧
  (∃ s, st.color = some s ∧ s ≠ "") ∧
  (∃ s, st.colorMode = some s ∧ s ≠ "") ∧
  (∃ n, st.fill = some n) ∧
  (∃ n, st.outline = some n)

/-- Python-`==` field-by-field equality of `PolyStyle`s (`fill` and
`outline` are ints, compared exactly). -/
def PolyStyle.fieldEq (a b : PolyStyle) : Prop :=
  a.ns = b.ns ∧ a.id = b.id ∧ a.color = b.color ∧ a.colorMode = b.colorMode ∧
  a.fill = b.fill ∧ a.outline = b.outline

/-- A fully populated `LabelStyle`. -/
def LabelStyle.FullyPopulated (st : LabelStyle) : Prop :=
  (∃ s, st.id = some s) ∧
  (∃ s, st.color = some s ∧ s ≠ "") ∧
  (∃ s, st.colorMode = some s ∧ s ≠ "") ∧
  (∃ v, st.scale = some v)

/-- Python-`==` field-by-field equality of `LabelStyle`s. -/
def LabelStyle.fieldEq (a b : LabelStyle) : Prop :=
  a.ns = b.ns ∧ a.id = b.id ∧ a.color = b.color ∧ a.colorMode = b.colorMode ∧
  optNumEqv a.scale b.scale

/-- A fully populated `BalloonStyle`: every field set (all four are
emitted on `is not None`, so empty strings round-trip too). -/
def BalloonStyle.FullyPopulated (st : BalloonStyle) : Prop :=
  (∃ s, st.id = some s) ∧
  (∃ s, st.bgColor = some s) ∧
  (∃ s, st.textColor = some s) ∧
  (∃ s, st.text = some s) ∧
  (∃ s, st.displayMode = some s)

/-- A fully populated `StyleUrl`. -/
def StyleUrl.FullyPopulated (u : StyleUrl) : Prop :=
  (∃ s, u.id = some s) ∧ (∃ s, u.url = some s ∧ s ≠ "")

/-! ### Round-trip of the numeric textual forms -/

theorem charToDigit_digitToChar {d : Nat} (h : d < 10) :
    charToDigit (digitToChar d) = some d := by
  interval_cases d <;> rfl

theorem digitToChar_ne_point {d : Nat} (h : d < 10) : digitToChar d ≠ '.' := by
  interval_cases d <;> decide

theorem digitToChar_ne_minus {d : Nat} (h : d < 10) : digitToChar d ≠ '-' := by
  interval_cases d <;> decide

theorem digitToChar_ne_plus {d : Nat} (h : d < 10) : digitToChar d ≠ '+' := by
  interval_cases d <;> decide

theorem readDigits_map_digitToChar {ds : List Nat} (h : ∀ d ∈ ds, d < 10) :
    readDigits (ds.map digitToChar) = some ds := by
  induction ds with
  | nil => rfl
  | cons d ds ih =>
      have hd : d < 10 := h d (List.mem_cons_self _ _)
      have ht : ∀ x ∈ ds, x < 10 := fun x hx => h x (List.mem_cons_of_mem _ hx)
      simp [readDigits, charToDigit_digitToChar hd, ih ht]

theorem splitPoint_no_point {cs : List Char} (h : '.' ∉ cs) :
    splitPoint cs = (cs, none) := by
  induction cs with
  | nil => rfl
  | cons c cs ih =>
      have hc : c ≠ '.' := fun hcc => h (hcc ▸ List.mem_cons_self _ _)
      have ht : '.' ∉ cs := fun hm => h (List.mem_cons_of_mem _ hm)
      simp [splitPoint, hc, ih ht]

theorem splitPoint_append_point {a b : List Char} (h : '.' ∉ a) :
    splitPoint (a ++ '.' :: b) = (a, some b) := by
  induction a with
  | nil => simp [splitPoint]
  | cons c cs ih =>
      have hc : c ≠ '.' := fun hcc => h (hcc ▸ List.mem_cons_self _ _)
      have ht : '.' ∉ cs := fun hm => h (List.mem_cons_of_mem _ hm)
      simp [splitPoint, hc, ih ht]

theorem digitsLE_eq_digits {fuel n : Nat} (h : n ≤ fuel) :
    digitsLE fuel n = Nat.digits 10 n := by
  induction fuel generalizing n with
  | zero =>
      interval_cases n
      simp [digitsLE]
  | succ f ih =>
      match n with
      | 0 => simp [digitsLE]
      | n + 1 =>
          rw [digitsLE, Nat.digits_def' (by norm_num : 1 < 10) (Nat.succ_pos n)]
          have hdiv : (n + 1) / 10 ≤ f := by
            have := Nat.div_lt_self (Nat.succ_pos n) (by norm_num : 1 < 10)
            omega
          rw [ih hdiv]

theorem natDigitsBE_eq (n : Nat) : natDigitsBE n = (Nat.digits 10 n).reverse := by
  unfold natDigitsBE
  rw [digitsLE_eq_digits (Nat.le_refl n)]

theorem natDigitsBE_lt {n d : Nat} (h : d ∈ natDigitsBE n) : d < 10 := by
  rw [natDigitsBE_eq] at h
  exact Nat.digits_lt_base (by norm_num) (List.mem_reverse.mp h)

theorem ofDigitsBE_natDigitsBE (n : Nat) : ofDigitsBE (natDigitsBE n) = n := by
  unfold ofDigitsBE
  rw [natDigitsBE_eq, List.reverse_reverse]
  exact Nat.ofDigits_digits 10 n

theorem ofDigits_replicate_zero (k : Nat) :
    Nat.ofDigits 10 (List.replicate k 0) = 0 := by
  induction k with
  | zero => rfl
  | succ k ih => simp [List.replicate_succ, Nat.ofDigits_cons, ih]

theorem ofDigitsBE_pad (k : Nat) (l : List Nat) :
    ofDigitsBE (List.replicate k 0 ++ l) = ofDigitsBE l := by
  unfold ofDigitsBE
  rw [List.reverse_append, List.reverse_replicate, Nat.ofDigits_append,
    ofDigits_replicate_zero]
  ring

theorem ofDigitsBE_append_zero (l : List Nat) :
    ofDigitsBE (l ++ [0]) = 10 * ofDigitsBE l := by
  unfold ofDigitsBE
  rw [List.reverse_append]
  simp [Nat.ofDigits_cons]

theorem parseUnsigned_of_shape {ip fp : List Nat} (hip : ip ≠ [])
    (h1 : ∀ d ∈ ip, d < 10) (h2 : ∀ d ∈ fp, d < 10) :
    parseUnsigned (ip.map digitToChar ++ '.' :: fp.map digitToChar) =
      some (ofDigitsBE (ip ++ fp), fp.length) := by
  have hnp : '.' ∉ ip.map digitToChar := by
    intro hm
    rcases List.mem_map.mp hm with ⟨d, hd, hdc⟩
    exact digitToChar_ne_point (h1 d hd) hdc
  unfold parseUnsigned
  rw [splitPoint_append_point hnp]
  simp only [Option.getD_some]
  rw [readDigits_map_digitToChar h1, readDigits_map_digitToChar h2]
  rcases ip with _ | ⟨d, ds⟩
  · exact absurd rfl hip
  · simp [List.isEmpty]

theorem parseUnsigned_no_point {ip : List Nat} (hip : ip ≠ [])
    (h1 : ∀ d ∈ ip, d < 10) :
    parseUnsigned (ip.map digitToChar) = some (ofDigitsBE ip, 0) := by
  have hnp : '.' ∉ ip.map digitToChar := by
    intro hm
    rcases List.mem_map.mp hm with ⟨d, hd, hdc⟩
    exact digitToChar_ne_point (h1 d hd) hdc
  unfold parseUnsigned
  rw [splitPoint_no_point hnp]
  simp only [Option.getD_none]
  rw [readDigits_map_digitToChar h1]
  rcases ip with _ | ⟨d, ds⟩
  · exact absurd rfl hip
  · simp [readDigits, List.isEmpty]

theorem natStrChars_spec (n : Nat) :
    ∃ l : List Nat, natStrChars n = l.map digitToChar ∧ l ≠ [] ∧
      (∀ d ∈ l, d < 10) ∧ ofDigitsBE l = n := by
  by_cases h : n = 0
  · subst h
    exact ⟨[0], rfl, by simp, by simp, rfl⟩
  · refine ⟨natDigitsBE n, by simp [natStrChars, h], ?_, fun d hd => natDigitsBE_lt hd,
      ofDigitsBE_natDigitsBE n⟩
    rw [natDigitsBE_eq]
    simp [Nat.digits_ne_nil_iff_ne_zero, h]

theorem parseUnsigned_natStrChars (n : Nat) :
    parseUnsigned (natStrChars n) = some (n, 0) := by
  rcases natStrChars_spec n with ⟨l, hl, hne, h10, hval⟩
  rw [hl, parseUnsigned_no_point hne h10, hval]

theorem parseUnsigned_natStrChars_dotZero (n : Nat) :
    parseUnsigned (natStrChars n ++ ['.', '0']) = some (10 * n, 1) := by
  rcases natStrChars_spec n with ⟨l, hl, hne, h10, hval⟩
  have : natStrChars n ++ ['.', '0'] = l.map digitToChar ++ '.' :: [0].map digitToChar := by
    rw [hl]; rfl
  rw [this, parseUnsigned_of_shape hne h10 (by simp), ofDigitsBE_append_zero, hval]
  rfl

theorem parseUnsigned_floatStrCore (n e : Nat) (he : 1 ≤ e) :
    parseUnsigned (floatStrCore n e) = some (n, e) := by
  unfold floatStrCore
  simp only []
  set ds0 := natDigitsBE n with hds0
  set ds : List Nat := List.replicate (e + 1 - ds0.length) 0 ++ ds0 with hds
  have hall : ∀ d ∈ ds, d < 10 := by
    intro d hd
    rcases List.mem_append.mp hd with hd | hd
    · have := List.eq_of_mem_replicate hd
      omega
    · exact natDigitsBE_lt hd
  have hlen : ds.length = (e + 1 - ds0.length) + ds0.length := by
    simp [hds]
  have hL : e + 1 ≤ ds.length := by omega
  have htail : (ds.drop (ds.length - e)).length = e := by
    rw [List.length_drop]; omega
  have hheadlen : (ds.take (ds.length - e)).length = ds.length - e := by
    rw [List.length_take]; omega
  have hhead : ds.take (ds.length - e) ≠ [] := by
    intro hnil
    have := congrArg List.length hnil
    rw [hheadlen] at this
    simp at this
    omega
  rw [parseUnsigned_of_shape hhead
      (fun d hd => hall d (List.mem_of_mem_take hd))
      (fun d hd => hall d (List.mem_of_mem_drop hd))]
  rw [List.take_append_drop, htail]
  have hval : ofDigitsBE ds = n := by
    rw [hds, ofDigitsBE_pad, hds0, ofDigitsBE_natDigitsBE]
  rw [hval]

theorem stripTZ_toRat (e n : Nat) :
    (((stripTZ n e).1 : ℚ) / 10 ^ (stripTZ n e).2) = (n : ℚ) / 10 ^ e := by
  induction e generalizing n with
  | zero => rfl
  | succ e ih =>
      by_cases h : n % 10 = 0
      · have hdvd : 10 ∣ n := Nat.dvd_of_mod_eq_zero h
        have h10 : ((n / 10 : Nat) : ℚ) * 10 = (n : ℚ) := by
          exact_mod_cast congrArg (Nat.cast (R := ℚ)) (Nat.div_mul_cancel hdvd)
        have hs : stripTZ n (e + 1) = stripTZ (n / 10) e := by
          simp [stripTZ, h]
        rw [hs, ih (n / 10), ← h10, pow_succ]
        rw [mul_div_mul_right _ _ (by norm_num : (10 : ℚ) ≠ 0)]
      · simp [stripTZ, h]

theorem parseSigned_head_digit {c : Char} {rest : List Char}
    (hc1 : c ≠ '-') (hc2 : c ≠ '+') :
    parseSigned (c :: rest) =
      (parseUnsigned (c :: rest)).map fun p => (⟨(p.1 : Int), p.2⟩ : PyFloat) := by
  simp [parseSigned, hc1, hc2]

/-- The printed form of a nonnegative quantity starts with a digit
character, hence is parsed through the unsigned branch. -/
theorem head_digit_of_shape {l : List Nat} {tail : List Char} (hl : l ≠ [])
    (h10 : ∀ d ∈ l, d < 10) :
    ∃ c rest, l.map digitToChar ++ tail = c :: rest ∧ c ≠ '-' ∧ c ≠ '+' := by
  rcases l with _ | ⟨d, ds⟩
  · exact absurd rfl hl
  · have hd : d < 10 := h10 d (List.mem_cons_self _ _)
    exact ⟨digitToChar d, ds.map digitToChar ++ tail, by simp,
      digitToChar_ne_minus hd, digitToChar_ne_plus hd⟩

theorem parseSigned_nonneg_shape {l : List Nat} {tail : List Char} (hl : l ≠ [])
    (h10 : ∀ d ∈ l, d < 10) :
    parseSigned (l.map digitToChar ++ tail) =
      (parseUnsigned (l.map digitToChar ++ tail)).map
        fun p => (⟨(p.1 : Int), p.2⟩ : PyFloat) := by
  rcases @head_digit_of_shape l tail hl h10 with ⟨c, rest, heq, hc1, hc2⟩
  rw [heq, parseSigned_head_digit hc1 hc2]

theorem parseSigned_cons_minus (rest : List Char) :
    parseSigned ('-' :: rest) =
      (parseUnsigned rest).map fun p => (⟨-(p.1 : Int), p.2⟩ : PyFloat) := by
  simp [parseSigned]

theorem floatStrCore_head (n e : Nat) (he : 1 ≤ e) :
    ∃ c rest, floatStrCore n e = c :: rest ∧ c ≠ '-' ∧ c ≠ '+' := by
  unfold floatStrCore
  simp only []
  set ds0 := natDigitsBE n with hds0
  set ds : List Nat := List.replicate (e + 1 - ds0.length) 0 ++ ds0 with hds
  have hlen : ds.length = (e + 1 - ds0.length) + ds0.length := by simp [hds]
  have hheadlen : (ds.take (ds.length - e)).length = ds.length - e := by
    rw [List.length_take]; omega
  rcases hip : ds.take (ds.length - e) with _ | ⟨d, rest'⟩
  · exfalso
    have := congrArg List.length hip
    rw [hheadlen] at this
    simp at this
    omega
  · have hd10 : d < 10 := by
      have hmem : d ∈ ds := List.mem_of_mem_take (hip ▸ List.mem_cons_self d rest')
      rcases List.mem_append.mp hmem with hm | hm
      · have := List.eq_of_mem_replicate hm; omega
      · exact natDigitsBE_lt hm
    exact ⟨digitToChar d, rest'.map digitToChar ++
        '.' :: (ds.drop (ds.length - e)).map digitToChar,
      by simp [hip], digitToChar_ne_minus hd10, digitToChar_ne_plus hd10⟩

theorem PyFloat.toRat_mk (a : Int) (b : Nat) :
    (PyFloat.mk a b).toRat = (a : ℚ) / 10 ^ b := rfl

theorem natAbs_cast_rat (m : Int) :
    ((m.natAbs : ℕ) : ℚ) = if m < 0 then -(m : ℚ) else (m : ℚ) := by
  rw [Int.cast_natAbs]
  split
  · rename_i h
    rw [abs_of_neg h]
    push_cast
    ring
  · rename_i h
    rw [abs_of_nonneg (not_lt.mp h)]

theorem tenN_div_ten (n : Nat) : ((10 * n : ℕ) : ℚ) / 10 ^ (1 : ℕ) = (n : ℚ) := by
  rw [pow_one]
  push_cast
  rw [mul_comm, mul_div_assoc]
  norm_num

theorem parseSigned_pyStrFloatChars (x : PyFloat) :
    ∃ y : PyFloat, parseSigned (pyStrFloatChars x) = some y ∧ y.toRat = x.toRat := by
  rcases hp : stripTZ x.m.natAbs x.e with ⟨n, e'⟩
  have hval : (n : ℚ) / 10 ^ e' = (x.m.natAbs : ℚ) / 10 ^ x.e := by
    have h := stripTZ_toRat x.e x.m.natAbs
    rw [hp] at h
    exact h
  have hxrat : x.toRat = (if x.m < 0 then -1 else 1) * ((x.m.natAbs : ℚ) / 10 ^ x.e) := by
    unfold PyFloat.toRat
    rw [div_eq_mul_inv, div_eq_mul_inv, natAbs_cast_rat]
    split <;> ring
  rcases e' with _ | k
  · -- all fractional digits stripped: printed as `digits ++ ".0"`
    have hn : (n : ℚ) = (x.m.natAbs : ℚ) / 10 ^ x.e := by
      simpa using hval
    have hlist : pyStrFloatChars x =
        if x.m < 0 then '-' :: (natStrChars n ++ ['.', '0'])
        else natStrChars n ++ ['.', '0'] := by
      simp [pyStrFloatChars, hp]
    have hpu : parseUnsigned (natStrChars n ++ ['.', '0']) = some (10 * n, 1) :=
      parseUnsigned_natStrChars_dotZero n
    by_cases hm : x.m < 0
    · refine ⟨⟨-((10 * n : ℕ) : Int), 1⟩, ?_, ?_⟩
      · rw [hlist, if_pos hm, parseSigned_cons_minus, hpu]
        rfl
      · rw [PyFloat.toRat_mk, hxrat, if_pos hm, ← hn]
        push_cast [tenN_div_ten]
        rw [show ((-(10 * (n : ℚ))) / 10 ^ (1 : ℕ)) = -((10 * (n : ℚ)) / 10 ^ (1 : ℕ)) from by ring]
        rw [pow_one, mul_comm, mul_div_assoc]
        norm_num
    · rcases natStrChars_spec n with ⟨l, hl, hne, h10, _⟩
      refine ⟨⟨((10 * n : ℕ) : Int), 1⟩, ?_, ?_⟩
      · have hshape : pyStrFloatChars x = l.map digitToChar ++ ['.', '0'] := by
          rw [hlist, if_neg hm, hl]
        rw [hshape, parseSigned_nonneg_shape hne h10, ← hl, hpu]
        rfl
      · rw [PyFloat.toRat_mk, hxrat, if_neg hm, ← hn]
        push_cast
        rw [pow_one, mul_comm, mul_div_assoc]
        norm_num
  · -- at least one fractional digit remains
    have hlist : pyStrFloatChars x =
        if x.m < 0 then '-' :: floatStrCore n (k + 1)
        else floatStrCore n (k + 1) := by
      simp [pyStrFloatChars, hp]
    have hpu : parseUnsigned (floatStrCore n (k + 1)) = some (n, k + 1) :=
      parseUnsigned_floatStrCore n (k + 1) (by omega)
    by_cases hm : x.m < 0
    · refine ⟨⟨-(n : Int), k + 1⟩, ?_, ?_⟩
      · rw [hlist, if_pos hm, parseSigned_cons_minus, hpu]
        rfl
      · rw [PyFloat.toRat_mk, hxrat, if_pos hm, ← hval]
        push_cast
        ring
    · rcases floatStrCore_head n (k + 1) (by omega) with ⟨c, rest, hcr, hc1, hc2⟩
      refine ⟨⟨(n : Int), k + 1⟩, ?_, ?_⟩
      · rw [hlist, if_neg hm, hcr, parseSigned_head_digit hc1 hc2, ← hcr, hpu]
        rfl
      · rw [PyFloat.toRat_mk, hxrat, if_neg hm, ← hval]
        push_cast
        ring

/-- Round trip of the numeric textual forms: Python `float(str(v))`
recovers the value of `v`, for ints and floats alike. -/
theorem parsePyFloat_pyStr (v : PyNum) :
    ∃ y : PyFloat, parsePyFloat (pyStr v) = some y ∧ y.toRat = v.toRat := by
  rcases v with n | x
  · unfold pyStr pyStrInt parsePyFloat
    simp only []
    by_cases hm : n < 0
    · rw [if_pos hm]
      rw [parseSigned_cons_minus, parseUnsigned_natStrChars]
      refine ⟨⟨-(n.natAbs : Int), 0⟩, rfl, ?_⟩
      rw [PyFloat.toRat_mk]
      unfold PyNum.toRat
      push_cast [natAbs_cast_rat, if_pos hm]
      rw [abs_of_neg (show (n : ℚ) < 0 from by exact_mod_cast hm)]
      ring
    · rw [if_neg hm]
      rcases natStrChars_spec n.natAbs with ⟨l, hl, hne, h10, _⟩
      rw [hl, show List.map digitToChar l = List.map digitToChar l ++ []
          from (List.append_nil _).symm,
        parseSigned_nonneg_shape hne h10, List.append_nil, ← hl,
        parseUnsigned_natStrChars]
      refine ⟨⟨(n.natAbs : Int), 0⟩, rfl, ?_⟩
      rw [PyFloat.toRat_mk]
      unfold PyNum.toRat
      push_cast [natAbs_cast_rat, if_neg hm]
      rw [abs_of_nonneg (show (0 : ℚ) ≤ (n : ℚ) from by exact_mod_cast not_lt.mp hm)]
      norm_num
  · rcases parseSigned_pyStrFloatChars x with ⟨y, hy, hrat⟩
    exact ⟨y, hy, hrat⟩

/-- `int(float(text))` on an integer-valued float gives back the
integer. -/
theorem PyFloat.trunc_of_toRat_int {x : PyFloat} {n : Int} (h : x.toRat = (n : ℚ)) :
    x.trunc = n := by
  have hpow : (0 : ℤ) < 10 ^ x.e := pow_pos (by norm_num) _
  have hm : x.m = n * 10 ^ x.e := by
    unfold PyFloat.toRat at h
    rw [div_eq_iff (by positivity : ((10 : ℚ) ^ x.e) ≠ 0)] at h
    exact_mod_cast h
  have habs : x.m.natAbs = n.natAbs * 10 ^ x.e := by
    rw [hm, Int.natAbs_mul, Int.natAbs_pow]
    rfl
  unfold PyFloat.trunc
  rw [habs, Nat.mul_div_cancel _ (Nat.pos_pow_of_pos x.e (by norm_num))]
  split
  · rename_i hneg
    have hn : n < 0 := by
      rcases lt_trichotomy n 0 with h0 | h0 | h0
      · exact h0
      · exfalso
        rw [h0, zero_mul] at hm
        omega
      · exfalso
        have hgt := mul_pos h0 hpow
        linarith [hm ▸ hneg]
    omega
  · rename_i hneg
    have hn : 0 ≤ n := by
      by_contra hc
      push_neg at hc
      have hlt := mul_neg_of_neg_of_pos hc hpow
      rw [← hm] at hlt
      exact hneg hlt
    omega

theorem ns_append_inj {ns a b : String} : ns ++ a = ns ++ b ↔ a = b := by
  constructor
  · intro h
    have hd := congrArg String.data h
    rw [String.data_append, String.data_append] at hd
    exact String.ext (List.append_cancel_left hd)
  · intro h
    rw [h]

theorem ns_append_beq (ns a b : String) : (ns ++ a == ns ++ b) = (a == b) := by
  by_cases h : a = b
  · simp [h]
  · have hne : ¬(ns ++ a = ns ++ b) := fun hc => h (ns_append_inj.mp hc)
    simp [h, hne]

/-! ## Proof infrastructure -/

theorem except_bind_ok_iff {ε α β : Type} (x : Except ε α) (f : α → Except ε β) (b : β) :
    (x >>= f) = .ok b ↔ ∃ a, x = .ok a ∧ f a = .ok b := by
  cases x <;> simp [Bind.bind, Except.bind]

theorem except_pure_eq {ε α : Type} (a : α) : (pure a : Except ε α) = .ok a := rfl

theorem tag_of_mem_presentTextChild {tag : String} {v : Option String} {c : Element}
    (h : c ∈ presentTextChild tag v) : c.tag = tag := by
  cases v with
  | none => simp [presentTextChild] at h
  | some s =>
      simp [presentTextChild] at h
      rw [h, textElem]

theorem tag_of_mem_truthyTextChild {tag : String} {v : Option String} {c : Element}
    (h : c ∈ truthyTextChild tag v) : c.tag = tag := by
  cases v with
  | none => simp [truthyTextChild] at h
  | some s =>
      by_cases hs : s = "" <;> simp [truthyTextChild, hs] at h
      rw [h, textElem]

theorem tag_of_mem_numTextChild {tag : String} {v : Option PyNum} {c : Element}
    (h : c ∈ numTextChild tag v) : c.tag = tag := by
  cases v with
  | none => simp [numTextChild] at h
  | some s =>
      simp [numTextChild] at h
      rw [h, textElem]

theorem tag_of_mem_truthyNumTextChild {tag : String} {v : Option PyNum} {c : Element}
    (h : c ∈ truthyNumTextChild tag v) : c.tag = tag := by
  cases v with
  | none => simp [truthyNumTextChild] at h
  | some s =>
      by_cases hs : s.truthy <;> simp [truthyNumTextChild, hs] at h
      rw [h, textElem]

theorem tag_of_mem_intTextChild {tag : String} {v : Option Int} {c : Element}
    (h : c ∈ intTextChild tag v) : c.tag = tag := by
  cases v with
  | none => simp [intTextChild] at h
  | some s =>
      simp [intTextChild] at h
      rw [h, textElem]

theorem tag_of_mem_colorStyleChildren {ns : String} {color colorMode : Option String}
    {c : Element} (h : c ∈ colorStyleChildren ns color colorMode) :
    c.tag = ns ++ "color" ∨ c.tag = ns ++ "colorMode" := by
  rcases List.mem_append.mp h with h1 | h1
  · exact Or.inl (tag_of_mem_truthyTextChild h1)
  · exact Or.inr (tag_of_mem_truthyTextChild h1)

/-! ## Claims -/

/-- C5: encoding a `StyleUrl` whose url is empty or unset fails with a
ValueKind error and emits no element; for every non-empty url it
produces a single element whose text is exactly the url. -/
theorem c5_styleurl_encode (u : StyleUrl) :
    ((u.url = none ∨ u.url = some "") → u.etree_element = .error .valueError) ∧
    (∀ s, u.url = some s → s ≠ "" →
      u.etree_element = .ok { tag := u.ns ++ "styleUrl", idAttr := u.id,
                              text := some s, children := [] }) := by
  constructor
  · rintro (h | h) <;> simp [StyleUrl.etree_element, h]
  · intro s hs hne
    simp [StyleUrl.etree_element, hs, hne, baseElement]

theorem c5_styleurl_encode_witness :
    ((freshStyleUrl "k").etree_element = .error .valueError ∧
      (StyleUrl.mk "k" none (some "")).etree_element = .error .valueError) ∧
    (StyleUrl.mk "k" (some "x") (some "#s1")).etree_element =
      .ok { tag := "k" ++ "styleUrl", idAttr := some "x",
            text := some "#s1", children := [] } :=
  ⟨⟨(c5_styleurl_encode (freshStyleUrl "k")).1 (Or.inl rfl),
    (c5_styleurl_encode (StyleUrl.mk "k" none (some ""))).1 (Or.inr rfl)⟩,
   (c5_styleurl_encode (StyleUrl.mk "k" (some "x") (some "#s1"))).2 "#s1" rfl (by decide)⟩

/-- C2: `Style.append_style` accepts a member exactly when its runtime
kind is one of the five concrete kinds; for every member of any other
kind it fails with a TypeKind error, the bundle unchanged (an error
result carries no updated bundle). -/
theorem c2_append_admission (st : Style) (obj : PyObj) :
    (∀ m, obj.asMember = some m →
      st.append_style obj = .ok { st with _styles := st._styles ++ [m] }) ∧
    (obj.asMember = none → st.append_style obj = .error .typeError) := by
  constructor
  · intro m hm
    cases obj <;> simp [PyObj.asMember] at hm <;>
      simp [Style.append_style, ← hm]
  · intro hm
    cases obj <;> simp [PyObj.asMember] at hm
    simp [Style.append_style]

theorem c2_append_admission_witness :
    ((freshStyle "k").append_style (.balloon (freshBalloonStyle "k")) =
      .ok { freshStyle "k" with _styles := (freshStyle "k")._styles
              ++ [.balloon (freshBalloonStyle "k")] }) ∧
    ((freshStyle "k").append_style (.other "StyleUrl") = .error .typeError) :=
  ⟨(c2_append_admission (freshStyle "k") (.balloon (freshBalloonStyle "k"))).1 _ rfl,
   (c2_append_admission (freshStyle "k") (.other "StyleUrl")).2 rfl⟩

/-- C9: `_ColorStyle` decoding sets `color`/`colorMode` only when the
corresponding child is present; when a child is absent the prior field
value (including any constructor-applied default) is kept, no default
being reapplied. -/
theorem c9_colorstyle_decode_frame (ns : String) (color colorMode : Option String)
    (el : Element) :
    (el.find (ns ++ "color") = none →
      (colorStyleFrom ns color colorMode el).1 = color) ∧
    (el.find (ns ++ "colorMode") = none →
      (colorStyleFrom ns color colorMode el).2 = colorMode) ∧
    (∀ c, el.find (ns ++ "color") = some c →
      (colorStyleFrom ns color colorMode el).1 = c.text) ∧
    (∀ c, el.find (ns ++ "colorMode") = some c →
      (colorStyleFrom ns color colorMode el).2 = c.text) := by
  refine ⟨fun h => ?_, fun h => ?_, fun c h => ?_, fun c h => ?_⟩ <;>
    simp only [colorStyleFrom, h]

theorem c9_colorstyle_decode_frame_witness :
    (colorStyleFrom "k" (some "ff0000ff") none
        { tag := "kLineStyle", idAttr := none, text := none, children := [] }).1 =
      some "ff0000ff" ∧
    (colorStyleFrom "k" (some "ff0000ff") none
        { tag := "kLineStyle", idAttr := none, text := none, children := [] }).2 =
      none :=
  ⟨(c9_colorstyle_decode_frame "k" (some "ff0000ff") none _).1 rfl,
   (c9_colorstyle_decode_frame "k" (some "ff0000ff") none _).2.1 rfl⟩

/-- C4: decoding a `Pair` whose `key` text is neither `"normal"` nor
`"highlight"` fails with a ValueKind error, and so does a `Pair` with
neither a nested `Style` nor a nested `styleUrl`; a `StyleMap` whose
single `Pair` fails this way fails to decode with the same error. -/
theorem c4_stylemap_pair_errors :
    (∀ (ns : String) (sm : StyleMap) (pair key : Element) (t : String),
      pair.find (ns ++ "key") = some key → key.text = some t →
      t ≠ "normal" → t ≠ "highlight" →
      StyleMap.processPair ns sm pair = .error .valueError) ∧
    (∀ (ns : String) (sm : StyleMap) (pair key : Element),
      pair.find (ns ++ "key") = some key →
      pair.find (ns ++ "Style") = none →
      pair.find (ns ++ "styleUrl") = none →
      StyleMap.processPair ns sm pair = .error .valueError) ∧
    (∀ (sm : StyleMap) (el pair : Element),
      el.findall (sm.ns ++ "Pair") = [pair] →
      StyleMap.processPair sm.ns { sm with id := idFrom sm.id el } pair =
        .error .valueError →
      StyleMap.from_element sm el = .error .valueError) := by
  refine ⟨?_, ?_, ?_⟩
  · intro ns sm pair key t hkey htext h1 h2
    simp [StyleMap.processPair, hkey, htext, h1, h2]
  · intro ns sm pair key hkey hstyle hsu
    simp only [StyleMap.processPair, hkey, hstyle, hsu]
    split
    · rfl
    · split
      · rfl
      · rfl
  · intro sm el pair hpairs hfail
    simp [StyleMap.from_element, hpairs, List.foldlM, hfail, Bind.bind, Except.bind]

theorem c4_stylemap_pair_errors_witness :
    (StyleMap.processPair "k" (freshStyleMap "k")
        { tag := "kPair", idAttr := none, text := none,
          children := [textElem "kkey" (some "sideways")] } =
      .error .valueError) ∧
    (StyleMap.processPair "k" (freshStyleMap "k")
        { tag := "kPair", idAttr := none, text := none,
          children := [textElem "kkey" (some "normal")] } =
      .error .valueError) ∧
    (StyleMap.from_element (freshStyleMap "k")
        { tag := "kStyleMap", idAttr := none, text := none,
          children := [{ tag := "kPair", idAttr := none, text := none,
                         children := [textElem "kkey" (some "sideways")] }] } =
      .error .valueError) := by
  refine ⟨?_, ?_, ?_⟩
  · exact c4_stylemap_pair_errors.1 "k" (freshStyleMap "k") _
      (textElem "kkey" (some "sideways")) "sideways" (by rfl) rfl
      (by decide) (by decide)
  · exact c4_stylemap_pair_errors.2.1 "k" (freshStyleMap "k") _
      (textElem "kkey" (some "normal")) (by rfl) (by rfl) (by rfl)
  · refine c4_stylemap_pair_errors.2.2 (freshStyleMap "k") _ _ (by rfl) ?_
    exact c4_stylemap_pair_errors.1 "k" _ _
      (textElem "kkey" (some "sideways")) "sideways" (by rfl) rfl
      (by decide) (by decide)

/-- C6: `PolyStyle` decoding parses `fill`/`outline` text with
`int(float(text))`: whenever the text parses as a float the field
becomes its truncation (so `"1.0"` yields `1` and `"0"` yields `0`),
and malformed numeric text fails with a ParseKind error. -/
theorem c6_polystyle_bool_parse :
    (∀ (st : PolyStyle) (el c : Element) (t : String) (x : PyFloat) (st' : PolyStyle),
      el.find (st.ns ++ "fill") = some c → c.text = some t →
      parsePyFloat t = some x →
      st.from_element el = .ok st' → st'.fill = some x.trunc) ∧
    (∀ (st : PolyStyle) (el c : Element) (t : String),
      el.find (st.ns ++ "fill") = some c → c.text = some t →
      parsePyFloat t = none → st.from_element el = .error .parseError) ∧
    (PolyStyle.from_element (freshPolyStyle "")
        { tag := "PolyStyle", idAttr := none, text := none,
          children := [textElem "fill" (some "1.0"), textElem "outline" (some "0")] } =
      .ok ⟨"", none, none, none, some 1, some 0⟩) := by
  refine ⟨?_, ?_, by rfl⟩
  · intro st el c t x st' hfill htext hparse hok
    simp only [PolyStyle.from_element, hfill, htext, pyFloatOfText, hparse,
      Bind.bind, Except.bind, except_pure_eq] at hok
    rcases houtline : el.find (st.ns ++ "outline") with _ | c2
    · simp only [houtline, except_pure_eq, Except.ok.injEq] at hok
      rw [← hok]
    · rcases htext2 : c2.text with _ | s2
      · simp [houtline, htext2] at hok
      · rcases hparse2 : parsePyFloat s2 with _ | y
        · simp [houtline, htext2, hparse2] at hok
        · simp only [houtline, htext2, hparse2, Except.ok.injEq] at hok
          rw [← hok]
  · intro st el c t hfill htext hparse
    simp [PolyStyle.from_element, hfill, htext, pyFloatOfText, hparse,
      Bind.bind, Except.bind]

theorem c6_polystyle_bool_parse_witness :
    ((PolyStyle.mk "" none none none (some 1) (some 1)).fill =
      some (PyFloat.mk 10 1).trunc) ∧
    (PolyStyle.from_element (freshPolyStyle "")
        { tag := "PolyStyle", idAttr := none, text := none,
          children := [textElem "fill" (some "12a")] } =
      .error .parseError) := by
  constructor
  · exact c6_polystyle_bool_parse.1 (freshPolyStyle "")
      { tag := "PolyStyle", idAttr := none, text := none,
        children := [textElem "fill" (some "1.0")] }
      (textElem "fill" (some "1.0")) "1.0" (PyFloat.mk 10 1)
      (PolyStyle.mk "" none none none (some 1) (some 1))
      (by rfl) rfl (by rfl) (by rfl)
  · exact c6_polystyle_bool_parse.2.1 (freshPolyStyle "") _ (textElem "fill" (some "12a"))
      "12a" (by rfl) rfl (by rfl)

/-- C8: `BalloonStyle` decoding uses a legacy `color` child for
`bgColor` only when a `bgColor` child is absent, and encoding never
emits a `color` child (the fallback is decode-only). -/
theorem c8_balloon_color_fallback :
    (∀ (st : BalloonStyle) (el c : Element),
      el.find (st.ns ++ "bgColor") = some c →
      (st.from_element el).bgColor = c.text) ∧
    (∀ (st : BalloonStyle) (el c : Element),
      el.find (st.ns ++ "bgColor") = none →
      el.find (st.ns ++ "color") = some c →
      (st.from_element el).bgColor = c.text) ∧
    (∀ (st : BalloonStyle) (c : Element),
      c ∈ st.etree_element.children → c.tag ≠ st.ns ++ "color") := by
  refine ⟨?_, ?_, ?_⟩
  · intro st el c hbg
    simp [BalloonStyle.from_element, hbg]
  · intro st el c hbg hc
    simp [BalloonStyle.from_element, hbg, hc]
  · intro st c hmem heq
    have htag : c.tag = st.ns ++ "bgColor" ∨ c.tag = st.ns ++ "textColor" ∨
        c.tag = st.ns ++ "text" ∨ c.tag = st.ns ++ "displayMode" := by
      simp only [BalloonStyle.etree_element, baseElement] at hmem
      rcases List.mem_append.mp hmem with h | h
      · rcases List.mem_append.mp h with h | h
        · rcases List.mem_append.mp h with h | h
          · exact Or.inl (tag_of_mem_presentTextChild h)
          · exact Or.inr (Or.inl (tag_of_mem_presentTextChild h))
        · exact Or.inr (Or.inr (Or.inl (tag_of_mem_presentTextChild h)))
      · exact Or.inr (Or.inr (Or.inr (tag_of_mem_presentTextChild h)))
    rcases htag with h | h | h | h <;>
      rw [h] at heq <;>
      exact absurd (ns_append_inj.mp heq) (by decide)

theorem c8_balloon_color_fallback_witness :
    ((BalloonStyle.from_element (freshBalloonStyle "k")
        { tag := "kBalloonStyle", idAttr := none, text := none,
          children := [textElem "kbgColor" (some "7fff0000"),
                       textElem "kcolor" (some "ffffffff")] }).bgColor =
      some "7fff0000") ∧
    ((BalloonStyle.from_element (freshBalloonStyle "k")
        { tag := "kBalloonStyle", idAttr := none, text := none,
          children := [textElem "kcolor" (some "ffffffff")] }).bgColor =
      some "ffffffff") ∧
    (textElem "kbgColor" (some "7fff0000")).tag ≠ "k" ++ "color" := by
  refine ⟨?_, ?_, ?_⟩
  · exact c8_balloon_color_fallback.1 (freshBalloonStyle "k") _
      (textElem "kbgColor" (some "7fff0000")) (by rfl)
  · exact c8_balloon_color_fallback.2.1 (freshBalloonStyle "k") _
      (textElem "kcolor" (some "ffffffff")) (by rfl) (by rfl)
  · exact c8_balloon_color_fallback.2.2
      (BalloonStyle.mk "k" none (some "7fff0000") none none none)
      (textElem "kbgColor" (some "7fff0000")) (by simp [BalloonStyle.etree_element,
        presentTextChild, baseElement, textElem])

/-- C7: `StyleMap` encoding emits one `Pair` per populated slot, in
the fixed order `normal` then `highlight`, each `Pair` holding a `key`
child with the literal slot name followed by the slot's encoded
content; a slot holding neither a `Style` nor a `StyleUrl` is silently
skipped rather than failing. -/
theorem c7_stylemap_encode :
    (∀ (ns k : String) (s : Style),
      slotPairs ns k (some (.style s)) = .ok [mkPairEl ns k s.etree_element]) ∧
    (∀ (ns k : String) (u : StyleUrl) (ue : Element),
      u.etree_element = .ok ue →
      slotPairs ns k (some (.styleUrl u)) = .ok [mkPairEl ns k ue]) ∧
    (∀ (ns k kind : String) (t : Bool),
      slotPairs ns k (some (.other kind t)) = .ok []) ∧
    (∀ (ns k : String), slotPairs ns k none = .ok []) ∧
    (∀ (sm : StyleMap) (pre post : List Element),
      slotPairs sm.ns "normal" sm.normal = .ok pre →
      slotPairs sm.ns "highlight" sm.highlight = .ok post →
      sm.etree_element =
        .ok { baseElement sm.ns "StyleMap" sm.id with children := pre ++ post }) := by
  refine ⟨?_, ?_, ?_, ?_, ?_⟩
  · intro ns k s
    simp [slotPairs, SlotVal.truthy, SlotVal.isStyleOrUrl, SlotVal.etree_element,
      Bind.bind, Except.bind, except_pure_eq]
  · intro ns k u ue hu
    simp [slotPairs, SlotVal.truthy, SlotVal.isStyleOrUrl, SlotVal.etree_element, hu,
      Bind.bind, Except.bind, except_pure_eq]
  · intro ns k kind t
    cases t <;> simp [slotPairs, SlotVal.truthy, SlotVal.isStyleOrUrl, except_pure_eq]
  · intro ns k
    rfl
  · intro sm pre post hn hh
    simp [StyleMap.etree_element, hn, hh, Bind.bind, Except.bind, except_pure_eq]

theorem c7_stylemap_encode_witness :
    (slotPairs "k" "normal" (some (.style (freshStyle "k"))) =
      .ok [mkPairEl "k" "normal" (freshStyle "k").etree_element]) ∧
    (slotPairs "k" "highlight" (some (.styleUrl (StyleUrl.mk "k" none (some "#s")))) =
      .ok [mkPairEl "k" "highlight"
        { tag := "k" ++ "styleUrl", idAttr := none, text := some "#s", children := [] }]) ∧
    (slotPairs "k" "normal" (some (.other "int" true)) = .ok []) ∧
    ((StyleMap.mk "k" none (some (.styleUrl (StyleUrl.mk "k" none (some "#s"))))
        (some (.other "int" true))).etree_element =
      .ok { baseElement "k" "StyleMap" none with
            children := [mkPairEl "k" "normal"
              { tag := "k" ++ "styleUrl", idAttr := none,
                text := some "#s", children := [] }] ++ [] }) := by
  refine ⟨?_, ?_, ?_, ?_⟩
  · exact c7_stylemap_encode.1 "k" "normal" (freshStyle "k")
  · exact c7_stylemap_encode.2.1 "k" "highlight" (StyleUrl.mk "k" none (some "#s")) _
      (by rfl)
  · exact c7_stylemap_encode.2.2.1 "k" "normal" "int" true
  · exact c7_stylemap_encode.2.2.2.2
      (StyleMap.mk "k" none (some (.styleUrl (StyleUrl.mk "k" none (some "#s"))))
        (some (.other "int" true)))
      [mkPairEl "k" "normal"
        { tag := "k" ++ "styleUrl", idAttr := none, text := some "#s", children := [] }]
      []
      (c7_stylemap_encode.2.1 "k" "normal" (StyleUrl.mk "k" none (some "#s")) _ (by rfl))
      (c7_stylemap_encode.2.2.1 "k" "highlight" "int" true)

/-! ### Groundwork for the `Style` decode/encode ordering -/

theorem except_bind_ok {ε α β : Type} {x : Except ε α} {f : α → Except ε β} {b : β}
    (h : Except.bind x f = .ok b) : ∃ a, x = .ok a ∧ f a = .ok b := by
  cases x with
  | error e => simp [Except.bind] at h
  | ok a => exact ⟨a, rfl, h⟩

theorem iconStyle_from_element_ns {st : IconStyle} {el : Element} {st' : IconStyle}
    (h : st.from_element el = .ok st') : st'.ns = st.ns := by
  simp only [IconStyle.from_element, Bind.bind, Except.bind, except_pure_eq] at h
  repeat' split at h
  all_goals first
    | (injection h with h2; rw [← h2])
    | injection h

theorem lineStyle_from_element_ns {st : LineStyle} {el : Element} {st' : LineStyle}
    (h : st.from_element el = .ok st') : st'.ns = st.ns := by
  simp only [LineStyle.from_element, Bind.bind, Except.bind, except_pure_eq] at h
  repeat' split at h
  all_goals first
    | (injection h with h2; rw [← h2])
    | injection h

theorem polyStyle_from_element_ns {st : PolyStyle} {el : Element} {st' : PolyStyle}
    (h : st.from_element el = .ok st') : st'.ns = st.ns := by
  simp only [PolyStyle.from_element, Bind.bind, Except.bind, except_pure_eq] at h
  repeat' split at h
  all_goals first
    | (injection h with h2; rw [← h2])
    | injection h

theorem labelStyle_from_element_ns {st : LabelStyle} {el : Element} {st' : LabelStyle}
    (h : st.from_element el = .ok st') : st'.ns = st.ns := by
  simp only [LabelStyle.from_element, Bind.bind, Except.bind, except_pure_eq] at h
  repeat' split at h
  all_goals first
    | (injection h with h2; rw [← h2])
    | injection h

theorem balloonStyle_from_element_ns (st : BalloonStyle) (el : Element) :
    (st.from_element el).ns = st.ns := rfl

theorem style_probe_icon {st0 s1 : Style} {el : Element}
    (h : styleProbeIcon st0 el = .ok s1) :
    s1.ns = st0.ns ∧
    memberTags s1._styles = memberTags st0._styles ++
      (if (el.find (st0.ns ++ "IconStyle")).isSome
       then [st0.ns ++ "IconStyle"] else []) := by
  simp only [styleProbeIcon, Bind.bind] at h
  rcases hf : el.find (st0.ns ++ "IconStyle") with _ | child
  · rw [hf] at h
    injection h with h2
    subst h2
    simp [hf]
  · rw [hf] at h
    obtain ⟨ic, hic, happ⟩ := except_bind_ok h
    have hns := iconStyle_from_element_ns hic
    simp only [Style.append_style] at happ
    injection happ with h2
    subst h2
    refine ⟨rfl, ?_⟩
    simp [hf, memberTags, StyleMember.etree_element, IconStyle.etree_element,
      baseElement, hns, freshIconStyle]

theorem style_probe_line {st0 s1 : Style} {el : Element}
    (h : styleProbeLine st0 el = .ok s1) :
    s1.ns = st0.ns ∧
    memberTags s1._styles = memberTags st0._styles ++
      (if (el.find (st0.ns ++ "LineStyle")).isSome
       then [st0.ns ++ "LineStyle"] else []) := by
  simp only [styleProbeLine, Bind.bind] at h
  rcases hf : el.find (st0.ns ++ "LineStyle") with _ | child
  · rw [hf] at h
    injection h with h2
    subst h2
    simp [hf]
  · rw [hf] at h
    obtain ⟨ic, hic, happ⟩ := except_bind_ok h
    have hns := lineStyle_from_element_ns hic
    simp only [Style.append_style] at happ
    injection happ with h2
    subst h2
    refine ⟨rfl, ?_⟩
    simp [hf, memberTags, StyleMember.etree_element, LineStyle.etree_element,
      baseElement, hns, freshLineStyle]

theorem style_probe_poly {st0 s1 : Style} {el : Element}
    (h : styleProbePoly st0 el = .ok s1) :
    s1.ns = st0.ns ∧
    memberTags s1._styles = memberTags st0._styles ++
      (if (el.find (st0.ns ++ "PolyStyle")).isSome
       then [st0.ns ++ "PolyStyle"] else []) := by
  simp only [styleProbePoly, Bind.bind] at h
  rcases hf : el.find (st0.ns ++ "PolyStyle") with _ | child
  · rw [hf] at h
    injection h with h2
    subst h2
    simp [hf]
  · rw [hf] at h
    obtain ⟨ic, hic, happ⟩ := except_bind_ok h
    have hns := polyStyle_from_element_ns hic
    simp only [Style.append_style] at happ
    injection happ with h2
    subst h2
    refine ⟨rfl, ?_⟩
    simp [hf, memberTags, StyleMember.etree_element, PolyStyle.etree_element,
      baseElement, hns, freshPolyStyle]

theorem style_probe_label {st0 s1 : Style} {el : Element}
    (h : styleProbeLabel st0 el = .ok s1) :
    s1.ns = st0.ns ∧
    memberTags s1._styles = memberTags st0._styles ++
      (if (el.find (st0.ns ++ "LabelStyle")).isSome
       then [st0.ns ++ "LabelStyle"] else []) := by
  simp only [styleProbeLabel, Bind.bind] at h
  rcases hf : el.find (st0.ns ++ "LabelStyle") with _ | child
  · rw [hf] at h
    injection h with h2
    subst h2
    simp [hf]
  · rw [hf] at h
    obtain ⟨ic, hic, happ⟩ := except_bind_ok h
    have hns := labelStyle_from_element_ns hic
    simp only [Style.append_style] at happ
    injection happ with h2
    subst h2
    refine ⟨rfl, ?_⟩
    simp [hf, memberTags, StyleMember.etree_element, LabelStyle.etree_element,
      baseElement, hns, freshLabelStyle]

theorem style_probe_balloon {st0 s1 : Style} {el : Element}
    (h : styleProbeBalloon st0 el = .ok s1) :
    s1.ns = st0.ns ∧
    memberTags s1._styles = memberTags st0._styles ++
      (if (el.find (st0.ns ++ "BalloonStyle")).isSome
       then [st0.ns ++ "BalloonStyle"] else []) := by
  simp only [styleProbeBalloon, Bind.bind] at h
  rcases hf : el.find (st0.ns ++ "BalloonStyle") with _ | child
  · rw [hf] at h
    injection h with h2
    subst h2
    simp [hf]
  · rw [hf] at h
    simp only [Style.append_style] at h
    injection h with h2
    subst h2
    refine ⟨rfl, ?_⟩
    simp [hf, memberTags, StyleMember.etree_element, BalloonStyle.etree_element,
      baseElement, balloonStyle_from_element_ns, freshBalloonStyle]

/-- C3: decoding a `Style` element probes for at most one child of
each of the five tag names, in the fixed order IconStyle, LineStyle,
PolyStyle, LabelStyle, BalloonStyle, so decoding then re-encoding
produces children in that canonical order regardless of the order the
children had in the source element. -/
theorem c3_canonical_order (ns : String) (el : Element) (st : Style)
    (h : Style.from_element (freshStyle ns) el = .ok st) :
    st.etree_element.children.map Element.tag =
      [ns ++ "IconStyle", ns ++ "LineStyle", ns ++ "PolyStyle",
       ns ++ "LabelStyle", ns ++ "BalloonStyle"].filter
        (fun t => (el.find t).isSome) := by
  simp only [Style.from_element, Bind.bind] at h
  obtain ⟨s1, h1, h⟩ := except_bind_ok h
  obtain ⟨s2, h2, h⟩ := except_bind_ok h
  obtain ⟨s3, h3, h⟩ := except_bind_ok h
  obtain ⟨s4, h4, h⟩ := except_bind_ok h
  obtain ⟨s5, h5, h⟩ := except_bind_ok h
  obtain ⟨hn1, ht1⟩ := style_probe_icon h1
  rw [show ({ ns := (freshStyle ns).ns, id := idFrom (freshStyle ns).id el, _styles := (freshStyle ns)._styles } : Style).ns = ns from rfl] at ht1
  obtain ⟨hn2, ht2⟩ := style_probe_line h2
  obtain ⟨hn3, ht3⟩ := style_probe_poly h3
  obtain ⟨hn4, ht4⟩ := style_probe_label h4
  obtain ⟨hn5, ht5⟩ := style_probe_balloon h5
  injection h with hst
  subst hst
  have e1 : s1.ns = ns := hn1
  have e2 : s2.ns = ns := hn2.trans e1
  have e3 : s3.ns = ns := hn3.trans e2
  have e4 : s4.ns = ns := hn4.trans e3
  rw [e1] at ht2
  rw [e2] at ht3
  rw [e3] at ht4
  rw [e4] at ht5
  have hbase : memberTags ({ freshStyle ns with
      id := idFrom (freshStyle ns).id el })._styles = [] := rfl
  rw [hbase] at ht1
  have hgoal : s5.etree_element.children.map Element.tag = memberTags s5._styles := by
    simp [Style.etree_element, memberTags, baseElement, List.map_map]
  rw [hgoal, ht5, ht4, ht3, ht2, ht1]
  simp only [List.filter_cons, List.filter_nil, List.nil_append]
  split_ifs <;> rfl

theorem c3_canonical_order_witness :
    Style.from_element (freshStyle "k") elC3 = .ok stC3 ∧
    stC3.etree_element.children.map Element.tag =
      ["k" ++ "IconStyle", "k" ++ "LineStyle", "k" ++ "PolyStyle",
       "k" ++ "LabelStyle", "k" ++ "BalloonStyle"].filter
        (fun t => (elC3.find t).isSome) :=
  ⟨by rfl, c3_canonical_order "k" elC3 stC3 (by rfl)⟩

theorem iconStyle_roundtrip (st : IconStyle) (hp : st.FullyPopulated) :
    ∃ st', IconStyle.from_element (freshIconStyle st.ns) st.etree_element = .ok st' ∧
      IconStyle.fieldEq st' st := by
  obtain ⟨⟨i, hid⟩, ⟨c, hc, hcne⟩, ⟨cm, hcm, hcmne⟩, ⟨sc, hsc⟩,
    ⟨hd, hhd, hhdt⟩, ⟨hr, hhr, hhrne⟩⟩ := hp
  obtain ⟨y1, hy1, hr1⟩ := parsePyFloat_pyStr sc
  obtain ⟨y2, hy2, hr2⟩ := parsePyFloat_pyStr hd
  have henc : st.etree_element =
      { tag := st.ns ++ "IconStyle", idAttr := some i, text := none,
        children := [textElem (st.ns ++ "color") (some c),
                     textElem (st.ns ++ "colorMode") (some cm),
                     textElem (st.ns ++ "scale") (some (pyStr sc)),
                     textElem (st.ns ++ "heading") (some (pyStr hd)),
                     { tag := st.ns ++ "Icon", idAttr := none, text := none,
                       children := [textElem (st.ns ++ "href") (some hr)] }] } := by
    simp [IconStyle.etree_element, colorStyleChildren, truthyTextChild, numTextChild,
      truthyNumTextChild, baseElement, hid, hc, hcm, hsc, hhd, hhdt, hhr,
      hcne, hcmne, hhrne, textElem]
  refine ⟨⟨st.ns, some i, some c, some cm, some (.float y1), some (.float y2), some hr⟩,
    ?_, ?_⟩
  · rw [henc]
    simp [IconStyle.from_element, Element.find, textElem, ns_append_beq, idFrom,
      colorStyleFrom, pyFloatOfText, hy1, hy2, freshIconStyle,
      Bind.bind, Except.bind, except_pure_eq]
  · refine ⟨rfl, hid.symm, hc.symm, hcm.symm, ?_, ?_, hhr.symm⟩
    · rw [hsc]
      simpa [optNumEqv, PyNum.eqv, PyNum.toRat] using hr1
    · rw [hhd]
      simpa [optNumEqv, PyNum.eqv, PyNum.toRat] using hr2

theorem lineStyle_roundtrip (st : LineStyle) (hp : st.FullyPopulated) :
    ∃ st', LineStyle.from_element (freshLineStyle st.ns) st.etree_element = .ok st' ∧
      LineStyle.fieldEq st' st := by
  obtain ⟨⟨i, hid⟩, ⟨c, hc, hcne⟩, ⟨cm, hcm, hcmne⟩, ⟨w, hw⟩⟩ := hp
  obtain ⟨y1, hy1, hr1⟩ := parsePyFloat_pyStr w
  have henc : st.etree_element =
      { tag := st.ns ++ "LineStyle", idAttr := some i, text := none,
        children := [textElem (st.ns ++ "color") (some c),
                     textElem (st.ns ++ "colorMode") (some cm),
                     textElem (st.ns ++ "width") (some (pyStr w))] } := by
    simp [LineStyle.etree_element, colorStyleChildren, truthyTextChild, numTextChild,
      baseElement, hid, hc, hcm, hw, hcne, hcmne, textElem]
  refine ⟨⟨st.ns, some i, some c, some cm, some (.float y1)⟩, ?_, ?_⟩
  · rw [henc]
    simp [LineStyle.from_element, Element.find, textElem, ns_append_beq, idFrom,
      colorStyleFrom, pyFloatOfText, hy1, freshLineStyle,
      Bind.bind, Except.bind, except_pure_eq]
  · refine ⟨rfl, hid.symm, hc.symm, hcm.symm, ?_⟩
    rw [hw]
    simpa [optNumEqv, PyNum.eqv, PyNum.toRat] using hr1

theorem polyStyle_roundtrip (st : PolyStyle) (hp : st.FullyPopulated) :
    ∃ st', PolyStyle.from_element (freshPolyStyle st.ns) st.etree_element = .ok st' ∧
      PolyStyle.fieldEq st' st := by
  obtain ⟨⟨i, hid⟩, ⟨c, hc, hcne⟩, ⟨cm, hcm, hcmne⟩, ⟨nf, hnf⟩, ⟨no, hno⟩⟩ := hp
  obtain ⟨y1, hy1, hr1⟩ := parsePyFloat_pyStr (.int nf)
  obtain ⟨y2, hy2, hr2⟩ := parsePyFloat_pyStr (.int no)
  have ht1 : y1.trunc = nf :=
    PyFloat.trunc_of_toRat_int (by simpa [PyNum.toRat] using hr1)
  have ht2 : y2.trunc = no :=
    PyFloat.trunc_of_toRat_int (by simpa [PyNum.toRat] using hr2)
  have henc : st.etree_element =
      { tag := st.ns ++ "PolyStyle", idAttr := some i, text := none,
        children := [textElem (st.ns ++ "color") (some c),
                     textElem (st.ns ++ "colorMode") (some cm),
                     textElem (st.ns ++ "fill") (some (pyStrInt nf)),
                     textElem (st.ns ++ "outline") (some (pyStrInt no))] } := by
    simp [PolyStyle.etree_element, colorStyleChildren, truthyTextChild, intTextChild,
      baseElement, hid, hc, hcm, hnf, hno, hcne, hcmne, textElem]
  refine ⟨⟨st.ns, some i, some c, some cm, some y1.trunc, some y2.trunc⟩, ?_, ?_⟩
  · rw [henc]
    have hps1 : parsePyFloat (pyStrInt nf) = some y1 := by
      simpa [pyStr] using hy1
    have hps2 : parsePyFloat (pyStrInt no) = some y2 := by
      simpa [pyStr] using hy2
    simp [PolyStyle.from_element, Element.find, textElem, ns_append_beq, idFrom,
      colorStyleFrom, pyFloatOfText, hps1, hps2, freshPolyStyle,
      Bind.bind, Except.bind, except_pure_eq]
  · exact ⟨rfl, hid.symm, hc.symm, hcm.symm, by rw [ht1, hnf], by rw [ht2, hno]⟩

theorem labelStyle_roundtrip (st : LabelStyle) (hp : st.FullyPopulated) :
    ∃ st', LabelStyle.from_element (freshLabelStyle st.ns) st.etree_element = .ok st' ∧
      LabelStyle.fieldEq st' st := by
  obtain ⟨⟨i, hid⟩, ⟨c, hc, hcne⟩, ⟨cm, hcm, hcmne⟩, ⟨sc, hsc⟩⟩ := hp
  obtain ⟨y1, hy1, hr1⟩ := parsePyFloat_pyStr sc
  have henc : st.etree_element =
      { tag := st.ns ++ "LabelStyle", idAttr := some i, text := none,
        children := [textElem (st.ns ++ "color") (some c),
                     textElem (st.ns ++ "colorMode") (some cm),
                     textElem (st.ns ++ "scale") (some (pyStr sc))] } := by
    simp [LabelStyle.etree_element, colorStyleChildren, truthyTextChild, numTextChild,
      baseElement, hid, hc, hcm, hsc, hcne, hcmne, textElem]
  refine ⟨⟨st.ns, some i, some c, some cm, some (.float y1)⟩, ?_, ?_⟩
  · rw [henc]
    simp [LabelStyle.from_element, Element.find, textElem, ns_append_beq, idFrom,
      colorStyleFrom, pyFloatOfText, hy1, freshLabelStyle,
      Bind.bind, Except.bind, except_pure_eq]
  · refine ⟨rfl, hid.symm, hc.symm, hcm.symm, ?_⟩
    rw [hsc]
    simpa [optNumEqv, PyNum.eqv, PyNum.toRat] using hr1

theorem balloonStyle_roundtrip (st : BalloonStyle) (hp : st.FullyPopulated) :
    BalloonStyle.from_element (freshBalloonStyle st.ns) st.etree_element = st := by
  obtain ⟨⟨i, hid⟩, ⟨bg, hbg⟩, ⟨tc, htc⟩, ⟨tx, htx⟩, ⟨dm, hdm⟩⟩ := hp
  have henc : st.etree_element =
      { tag := st.ns ++ "BalloonStyle", idAttr := some i, text := none,
        children := [textElem (st.ns ++ "bgColor") (some bg),
                     textElem (st.ns ++ "textColor") (some tc),
                     textElem (st.ns ++ "text") (some tx),
                     textElem (st.ns ++ "displayMode") (some dm)] } := by
    simp [BalloonStyle.etree_element, presentTextChild, baseElement,
      hid, hbg, htc, htx, hdm, textElem]
  rw [henc]
  have : st = ⟨st.ns, some i, some bg, some tc, some tx, some dm⟩ := by
    cases st
    simp_all
  rw [this]
  simp [BalloonStyle.from_element, Element.find, textElem, ns_append_beq, idFrom,
    freshBalloonStyle]

theorem styleUrl_roundtrip (u : StyleUrl) (hp : u.FullyPopulated) :
    ∃ el, u.etree_element = .ok el ∧
      StyleUrl.from_element (freshStyleUrl u.ns) el = u := by
  obtain ⟨⟨i, hid⟩, ⟨s, hu, hune⟩⟩ := hp
  refine ⟨{ tag := u.ns ++ "styleUrl", idAttr := some i, text := some s,
            children := [] }, ?_, ?_⟩
  · simp [StyleUrl.etree_element, hu, hune, hid, baseElement]
  · have : u = ⟨u.ns, some i, some s⟩ := by
      cases u
      simp_all
    rw [this]
    simp [StyleUrl.from_element, idFrom, freshStyleUrl]

/-- C1: for every concrete style variant (IconStyle, LineStyle,
PolyStyle, LabelStyle, BalloonStyle, StyleUrl) with a fully populated
instance, decoding the element produced by encoding it yields a value
equal to it field by field (numeric fields by Python `==`). -/
theorem c1_roundtrip :
    (∀ st : IconStyle, st.FullyPopulated →
      ∃ st', IconStyle.from_element (freshIconStyle st.ns) st.etree_element = .ok st' ∧
        IconStyle.fieldEq st' st) ∧
    (∀ st : LineStyle, st.FullyPopulated →
      ∃ st', LineStyle.from_element (freshLineStyle st.ns) st.etree_element = .ok st' ∧
        LineStyle.fieldEq st' st) ∧
    (∀ st : PolyStyle, st.FullyPopulated →
      ∃ st', PolyStyle.from_element (freshPolyStyle st.ns) st.etree_element = .ok st' ∧
        PolyStyle.fieldEq st' st) ∧
    (∀ st : LabelStyle, st.FullyPopulated →
      ∃ st', LabelStyle.from_element (freshLabelStyle st.ns) st.etree_element = .ok st' ∧
        LabelStyle.fieldEq st' st) ∧
    (∀ st : BalloonStyle, st.FullyPopulated →
      BalloonStyle.from_element (freshBalloonStyle st.ns) st.etree_element = st) ∧
    (∀ u : StyleUrl, u.FullyPopulated →
      ∃ el, u.etree_element = .ok el ∧
        StyleUrl.from_element (freshStyleUrl u.ns) el = u) :=
  ⟨iconStyle_roundtrip, lineStyle_roundtrip, polyStyle_roundtrip,
   labelStyle_roundtrip, balloonStyle_roundtrip, styleUrl_roundtrip⟩

theorem c1_roundtrip_witness :
    (∃ st', IconStyle.from_element (freshIconStyle "k")
        (IconStyle.mk "k" (some "i") (some "ff0000ff") (some "random")
          (some (.float ⟨25, 1⟩)) (some (.float ⟨45, 0⟩)) (some "x.png")).etree_element =
        .ok st' ∧
      IconStyle.fieldEq st'
        (IconStyle.mk "k" (some "i") (some "ff0000ff") (some "random")
          (some (.float ⟨25, 1⟩)) (some (.float ⟨45, 0⟩)) (some "x.png"))) ∧
    (∃ st', LineStyle.from_element (freshLineStyle "k")
        (LineStyle.mk "k" (some "i") (some "ff0000ff") (some "normal")
          (some (.float ⟨25, 1⟩))).etree_element = .ok st' ∧
      LineStyle.fieldEq st'
        (LineStyle.mk "k" (some "i") (some "ff0000ff") (some "normal")
          (some (.float ⟨25, 1⟩)))) ∧
    (∃ st', PolyStyle.from_element (freshPolyStyle "k")
        (PolyStyle.mk "k" (some "i") (some "ff0000ff") (some "normal")
          (some 1) (some 0)).etree_element = .ok st' ∧
      PolyStyle.fieldEq st'
        (PolyStyle.mk "k" (some "i") (some "ff0000ff") (some "normal")
          (some 1) (some 0))) ∧
    (∃ st', LabelStyle.from_element (freshLabelStyle "k")
        (LabelStyle.mk "k" (some "i") (some "ff0000ff") (some "normal")
          (some (.int 2))).etree_element = .ok st' ∧
      LabelStyle.fieldEq st'
        (LabelStyle.mk "k" (some "i") (some "ff0000ff") (some "normal")
          (some (.int 2)))) ∧
    (BalloonStyle.from_element (freshBalloonStyle "k")
        (BalloonStyle.mk "k" (some "i") (some "ffffffff") (some "ff000000")
          (some "hi") (some "default")).etree_element =
      BalloonStyle.mk "k" (some "i") (some "ffffffff") (some "ff000000")
        (some "hi") (some "default")) ∧
    (∃ el, (StyleUrl.mk "k" (some "i") (some "#s1")).etree_element = .ok el ∧
      StyleUrl.from_element (freshStyleUrl "k") el =
        StyleUrl.mk "k" (some "i") (some "#s1")) :=
  ⟨c1_roundtrip.1
      (IconStyle.mk "k" (some "i") (some "ff0000ff") (some "random")
        (some (.float ⟨25, 1⟩)) (some (.float ⟨45, 0⟩)) (some "x.png"))
      ⟨⟨"i", rfl⟩, ⟨"ff0000ff", rfl, by decide⟩,
      ⟨"random", rfl, by decide⟩, ⟨PyNum.float ⟨25, 1⟩, rfl⟩,
      ⟨PyNum.float ⟨45, 0⟩, rfl, by decide⟩,
      ⟨"x.png", rfl, by decide⟩⟩,
   c1_roundtrip.2.1
      (LineStyle.mk "k" (some "i") (some "ff0000ff") (some "normal")
        (some (.float ⟨25, 1⟩)))
      ⟨⟨"i", rfl⟩, ⟨"ff0000ff", rfl, by decide⟩,
      ⟨"normal", rfl, by decide⟩, ⟨PyNum.float ⟨25, 1⟩, rfl⟩⟩,
   c1_roundtrip.2.2.1
      (PolyStyle.mk "k" (some "i") (some "ff0000ff") (some "normal")
        (some 1) (some 0))
      ⟨⟨"i", rfl⟩, ⟨"ff0000ff", rfl, by decide⟩,
      ⟨"normal", rfl, by decide⟩, ⟨1, rfl⟩, ⟨0, rfl⟩⟩,
   c1_roundtrip.2.2.2.1
      (LabelStyle.mk "k" (some "i") (some "ff0000ff") (some "normal")
        (some (.int 2)))
      ⟨⟨"i", rfl⟩, ⟨"ff0000ff", rfl, by decide⟩,
      ⟨"normal", rfl, by decide⟩, ⟨PyNum.int 2, rfl⟩⟩,
   c1_roundtrip.2.2.2.2.1
      (BalloonStyle.mk "k" (some "i") (some "ffffffff") (some "ff000000")
        (some "hi") (some "default"))
      ⟨⟨"i", rfl⟩, ⟨"ffffffff", rfl⟩, ⟨"ff000000", rfl⟩,
      ⟨"hi", rfl⟩, ⟨"default", rfl⟩⟩,
   c1_roundtrip.2.2.2.2.2 (StyleUrl.mk "k" (some "i") (some "#s1"))
      ⟨⟨"i", rfl⟩, ⟨"#s1", rfl, by decide⟩⟩⟩

theorem tag_ne_of_suffix {ns a b : String} (h : a ≠ b) : ns ++ a ≠ ns ++ b :=
  fun hc => h (ns_append_inj.mp hc)

/-- An encoded `IconStyle` with falsy heading has no `heading` child. -/
theorem iconStyle_encode_no_heading {st : IconStyle} {h0 : PyNum}
    (hh : st.heading = some h0) (hft : h0.truthy = false) :
    st.etree_element.find (st.ns ++ "heading") = none := by
  unfold Element.find
  rw [List.find?_eq_none]
  intro c hmem
  simp only [beq_iff_eq]
  simp only [IconStyle.etree_element, baseElement] at hmem
  rcases List.mem_append.mp hmem with h1 | hicon
  · rcases List.mem_append.mp h1 with h2 | hhead
    · rcases List.mem_append.mp h2 with hcs | hscale
      · rcases tag_of_mem_colorStyleChildren hcs with h3 | h3 <;> rw [h3] <;>
          exact tag_ne_of_suffix (by decide)
      · rw [tag_of_mem_numTextChild hscale]
        exact tag_ne_of_suffix (by decide)
    · rw [hh] at hhead
      simp [truthyNumTextChild, hft] at hhead
  · rcases hhr : st.icon_href with _ | s
    · rw [hhr] at hicon
      simp at hicon
    · rw [hhr] at hicon
      by_cases hs : s = ""
      · simp [hs] at hicon
      · simp [hs] at hicon
        rw [hicon]
        exact tag_ne_of_suffix (by decide)

/-- `IconStyle` decoding leaves `heading` untouched when the element
has no `heading` child. -/
theorem iconStyle_from_element_heading_frame {st : IconStyle} {el : Element}
    {st' : IconStyle} (hel : el.find (st.ns ++ "heading") = none)
    (h : st.from_element el = .ok st') : st'.heading = st.heading := by
  simp only [IconStyle.from_element, Bind.bind, Except.bind, except_pure_eq, hel] at h
  repeat' split at h
  all_goals first
    | (injection h with h2; rw [← h2])
    | injection h

/-- C10: encoding an `IconStyle` whose `heading` is `0.0` omits the
`heading` child (truthiness treats `0` like absent) — the output
equals the output for an unset heading, and decoding the encoded
element leaves `heading` unset; for a nonzero heading the child is
emitted, with Python `str` of the value as text. -/
theorem c10_iconstyle_heading_zero :
    (∀ (st : IconStyle) (h0 : PyNum), st.heading = some h0 → h0.truthy = false →
      st.etree_element = ({ st with heading := none } : IconStyle).etree_element) ∧
    (∀ (st : IconStyle) (h0 : PyNum) (st' : IconStyle),
      st.heading = some h0 → h0.truthy = false →
      IconStyle.from_element (freshIconStyle st.ns) st.etree_element = .ok st' →
      st'.heading = none) ∧
    (∀ (st : IconStyle) (h0 : PyNum), st.heading = some h0 → h0.truthy = true →
      textElem (st.ns ++ "heading") (some (pyStr h0)) ∈ st.etree_element.children) := by
  refine ⟨?_, ?_, ?_⟩
  · intro st h0 hh hft
    simp [IconStyle.etree_element, truthyNumTextChild, hh, hft]
  · intro st h0 st' hh hft hok
    have hel : st.etree_element.find ((freshIconStyle st.ns).ns ++ "heading") = none :=
      iconStyle_encode_no_heading hh hft
    exact iconStyle_from_element_heading_frame hel hok
  · intro st h0 hh hht
    simp [IconStyle.etree_element, truthyNumTextChild, hh, hht, baseElement]

theorem c10_iconstyle_heading_zero_witness :
    ((IconStyle.mk "k" none (some "ff0000ff") none (some (.float ⟨1, 0⟩))
        (some (.float ⟨0, 1⟩)) none).etree_element =
      (IconStyle.mk "k" none (some "ff0000ff") none (some (.float ⟨1, 0⟩))
        none none).etree_element) ∧
    ((IconStyle.mk "k" none (some "ff0000ff") none
        (some (.float ⟨10, 1⟩)) none none) : IconStyle).heading = none ∧
    (textElem ("k" ++ "heading") (some (pyStr (.float ⟨45, 0⟩))) ∈
      (IconStyle.mk "k" none (some "ff0000ff") none (some (.float ⟨1, 0⟩))
        (some (.float ⟨45, 0⟩)) none).etree_element.children) :=
  ⟨c10_iconstyle_heading_zero.1
      (IconStyle.mk "k" none (some "ff0000ff") none (some (.float ⟨1, 0⟩))
        (some (.float ⟨0, 1⟩)) none)
      (.float ⟨0, 1⟩) rfl (by decide),
   c10_iconstyle_heading_zero.2.1
      (IconStyle.mk "k" none (some "ff0000ff") none (some (.float ⟨1, 0⟩))
        (some (.float ⟨0, 1⟩)) none)
      (.float ⟨0, 1⟩)
      (IconStyle.mk "k" none (some "ff0000ff") none (some (.float ⟨10, 1⟩)) none none)
      rfl (by decide) (by rfl),
   c10_iconstyle_heading_zero.2.2
      (IconStyle.mk "k" none (some "ff0000ff") none (some (.float ⟨1, 0⟩))
        (some (.float ⟨45, 0⟩)) none)
      (.float ⟨45, 0⟩) rfl (by decide)⟩

